import Mathlib

/-!
Shallow embedding of the AuroraSkins submission client
(`src/src/app.ts`) and its OAuth callback endpoint
(`src/api/github-callback.js`), together with theorems settling the
frozen claims about them.

Texts handled by the metadata extractor are modelled as `List Char`
(the ISO-8859-1 decoded file content); identifiers and paths as
`String`; the GitHub REST calls issued by `createPullRequest` as an
explicit trace of `ApiCall` values driven by an oracle `ApiBehavior`
describing how each remote step answers.
-/

/-! ### parseXzpMetadata (app.ts lines 157-203) -/

/-- The character `{` (written via its code point). -/
def lbrace : Char := '\x7b'

/-- The character `}` (written via its code point). -/
def rbrace : Char := '\x7d'

/-- One step of the brace counter of `parseXzpMetadata`:
`openBraces++` on `{`, `openBraces--` on `}`, unchanged otherwise. -/
def braceStep (n : Int) (c : Char) : Int :=
  if c = lbrace then n + 1 else if c = rbrace then n - 1 else n

/-- Predicate `matchesAt pat l`: `pat` occurs at the head of `l`
(character-by-character comparison, as `String.prototype.indexOf`
checks a candidate position). -/
def matchesAt : List Char → List Char → Bool
  | [], _ => true
  | _ :: _, [] => false
  | p :: ps, c :: cs => p = c && matchesAt ps cs

/-- Worker for `firstIndexOf`: scans positions left to right. -/
def firstIndexOfAux (pat : List Char) : List Char → Nat → Option Nat
  | [], i => if matchesAt pat [] then some i else none
  | c :: rest, i =>
      if matchesAt pat (c :: rest) then some i
      else firstIndexOfAux pat rest (i + 1)

/-- JavaScript `text.indexOf(pat)`, returning `none` for `-1`. -/
def firstIndexOf (pat text : List Char) : Option Nat :=
  firstIndexOfAux pat text 0

/-- The brace-matching loop of `parseXzpMetadata` (app.ts lines
169-181): starting from the remaining text and the running count,
update the count at each character and stop at the first index where
it returns to zero.  `i` is the absolute index of the head of the
list; the result is the absolute `endIndex`, or `none` when the loop
runs off the end (`endIndex === -1`). -/
def scanEnd : List Char → Int → Nat → Option Nat
  | [], _, _ => none
  | c :: rest, openBraces, i =>
      if braceStep openBraces c = 0 then some i
      else scanEnd rest (braceStep openBraces c) (i + 1)

/-- Instrumented variant of `scanEnd` that also counts how many
characters the loop examines. -/
def scanEndSteps : List Char → Int → Nat → Nat × Option Nat
  | [], _, _ => (0, none)
  | c :: rest, openBraces, i =>
      if braceStep openBraces c = 0 then (1, some i)
      else
        ((scanEndSteps rest (braceStep openBraces c) (i + 1)).1 + 1,
         (scanEndSteps rest (braceStep openBraces c) (i + 1)).2)

/-- Result of `parseXzpMetadata`: the resolved metadata, or one of the
three rejections of app.ts lines 166, 184 and 193. -/
inductive XzpResult (α : Type) where
  | ok (metadata : α)
  | noMarker
  | noEnd
  | badJson
deriving DecidableEq, Repr

/-- The marker searched for by app.ts line 164: the ten characters of
the literal containing `"metaver"` wrapped by an opening brace and a
quote. -/
def metaverMarker : List Char :=
  [lbrace, '\x22', 'm', 'e', 't', 'a', 'v', 'e', 'r', '\x22']

/-- app.ts lines 157-203, the onload body of `parseXzpMetadata`:
locate the marker, brace-match to the end index, extract the
substring and hand it to the JSON parser.  The platform primitive
`JSON.parse` is a parameter `jsonParse` (returning `none` when it
throws). -/
def parseXzpMetadata (jsonParse : List Char → Option α) (text : List Char) :
    XzpResult α :=
  match firstIndexOf metaverMarker text with
  | none => XzpResult.noMarker
  | some startIndex =>
      match scanEnd (text.drop startIndex) 0 startIndex with
      | none => XzpResult.noEnd
      | some endIndex =>
          let jsonString := (text.take (endIndex + 1)).drop startIndex
          match jsonParse jsonString with
          | some metadata => XzpResult.ok metadata
          | none => XzpResult.badJson

/-- Cumulative brace count of `parseXzpMetadata` after examining the
characters of `l` up to and including offset `k`. -/
def segBraceCount (l : List Char) (k : Nat) : Int :=
  (l.take (k + 1)).foldl braceStep 0

/-! ### Characterization lemmas for the scan -/

theorem matchesAt_nil_left (l : List Char) : matchesAt [] l = true := by
  cases l <;> rfl

theorem firstIndexOfAux_eq_none_iff (pat : List Char) (hpat : pat ≠ []) :
    ∀ (l : List Char) (i : Nat),
      firstIndexOfAux pat l i = none ↔ ∀ k, matchesAt pat (l.drop k) = false := by
  intro l
  induction l with
  | nil =>
      intro i
      simp only [firstIndexOfAux]
      cases pat with
      | nil => exact absurd rfl hpat
      | cons p ps =>
          simp only [matchesAt, if_neg (by simp : ¬ (false = true))]
          constructor
          · intro _ k
            simp [List.drop_nil, matchesAt]
          · intro _
            trivial
  | cons c rest ih =>
      intro i
      simp only [firstIndexOfAux]
      by_cases h : matchesAt pat (c :: rest) = true
      · simp only [h, if_pos rfl]
        constructor
        · intro hcontra
          exact absurd hcontra (by simp)
        · intro hall
          exact absurd (hall 0) (by simp [h])
      · have hfalse : matchesAt pat (c :: rest) = false := by
          simpa using h
        rw [if_neg (by simp [hfalse])]
        rw [ih (i + 1)]
        constructor
        · intro hall k
          cases k with
          | zero => simpa using hfalse
          | succ k' => simpa using hall k'
        · intro hall k
          simpa using hall (k + 1)

theorem firstIndexOfAux_eq_some_iff (pat : List Char) (hpat : pat ≠ []) :
    ∀ (l : List Char) (i j : Nat),
      firstIndexOfAux pat l i = some j ↔
        ∃ k, j = i + k ∧ matchesAt pat (l.drop k) = true ∧
          ∀ m, m < k → matchesAt pat (l.drop m) = false := by
  intro l
  induction l with
  | nil =>
      intro i j
      simp only [firstIndexOfAux]
      cases pat with
      | nil => exact absurd rfl hpat
      | cons p ps =>
          simp only [matchesAt, if_neg (by simp : ¬ (false = true))]
          constructor
          · intro hcontra
            exact absurd hcontra (by simp)
          · rintro ⟨k, -, hmk, -⟩
            rw [List.drop_nil] at hmk
            exact absurd hmk (by simp [matchesAt])
  | cons c rest ih =>
      intro i j
      simp only [firstIndexOfAux]
      by_cases h : matchesAt pat (c :: rest) = true
      · simp only [h, if_pos rfl]
        constructor
        · intro hj
          refine ⟨0, by simpa using hj.symm, by simpa using h, by omega⟩
        · rintro ⟨k, hjk, hmk, hmin⟩
          cases k with
          | zero => simp [hjk]
          | succ k' => exact absurd (hmin 0 (by omega)) (by simp [h])
      · have hfalse : matchesAt pat (c :: rest) = false := by simpa using h
        rw [if_neg (by simp [hfalse])]
        rw [ih (i + 1) j]
        constructor
        · rintro ⟨k, hjk, hmk, hmin⟩
          refine ⟨k + 1, by omega, by simpa using hmk, ?_⟩
          intro m hm
          cases m with
          | zero => simpa using hfalse
          | succ m' => simpa using hmin m' (by omega)
        · rintro ⟨k, hjk, hmk, hmin⟩
          cases k with
          | zero => exact absurd hmk (by simp [hfalse])
          | succ k' =>
              refine ⟨k', by omega, by simpa using hmk, ?_⟩
              intro m hm
              simpa using hmin (m + 1) (by omega)

theorem scanEnd_some_iff :
    ∀ (l : List Char) (acc : Int) (i j : Nat),
      scanEnd l acc i = some j ↔
        ∃ k, k < l.length ∧ j = i + k ∧
          (l.take (k + 1)).foldl braceStep acc = 0 ∧
          ∀ m, m < k → (l.take (m + 1)).foldl braceStep acc ≠ 0 := by
  intro l
  induction l with
  | nil =>
      intro acc i j
      simp [scanEnd]
  | cons c rest ih =>
      intro acc i j
      simp only [scanEnd]
      by_cases h : braceStep acc c = 0
      · rw [if_pos h]
        constructor
        · intro hj
          refine ⟨0, by simp, by simpa using (Option.some.inj hj).symm, by simpa using h, by omega⟩
        · rintro ⟨k, -, hjk, hfold, hmin⟩
          cases k with
          | zero => simp [hjk]
          | succ k' =>
              exact absurd (hmin 0 (by omega)) (by simpa using h)
      · rw [if_neg h]
        rw [ih (braceStep acc c) (i + 1) j]
        constructor
        · rintro ⟨k, hk, hjk, hfold, hmin⟩
          refine ⟨k + 1, by simpa using Nat.succ_lt_succ hk, by omega, ?_, ?_⟩
          · simpa [List.take_succ_cons, List.foldl_cons] using hfold
          · intro m hm
            cases m with
            | zero => simpa using h
            | succ m' =>
                simpa [List.take_succ_cons, List.foldl_cons] using hmin m' (by omega)
        · rintro ⟨k, hk, hjk, hfold, hmin⟩
          cases k with
          | zero => exact absurd (by simpa using hfold) h
          | succ k' =>
              refine ⟨k', by simpa using hk, by omega, ?_, ?_⟩
              · simpa [List.take_succ_cons, List.foldl_cons] using hfold
              · intro m hm
                simpa [List.take_succ_cons, List.foldl_cons] using hmin (m + 1) (by omega)

theorem scanEnd_none_iff :
    ∀ (l : List Char) (acc : Int) (i : Nat),
      scanEnd l acc i = none ↔
        ∀ k, k < l.length → (l.take (k + 1)).foldl braceStep acc ≠ 0 := by
  intro l
  induction l with
  | nil =>
      intro acc i
      simp [scanEnd]
  | cons c rest ih =>
      intro acc i
      simp only [scanEnd]
      by_cases h : braceStep acc c = 0
      · rw [if_pos h]
        constructor
        · intro hcontra
          exact absurd hcontra (by simp)
        · intro hall
          exact absurd (by simpa using h) (hall 0 (by simp))
      · rw [if_neg h]
        rw [ih (braceStep acc c) (i + 1)]
        constructor
        · intro hall k hk
          cases k with
          | zero => simpa using h
          | succ k' =>
              simpa [List.take_succ_cons, List.foldl_cons] using
                hall k' (by simpa using hk)
        · intro hall k hk
          simpa [List.take_succ_cons, List.foldl_cons] using
            hall (k + 1) (by simpa using Nat.succ_lt_succ hk)

theorem scanEndSteps_spec :
    ∀ (l : List Char) (acc : Int) (i : Nat),
      (scanEndSteps l acc i).1 ≤ l.length ∧
      (scanEndSteps l acc i).2 = scanEnd l acc i := by
  intro l
  induction l with
  | nil =>
      intro acc i
      simp [scanEndSteps, scanEnd]
  | cons c rest ih =>
      intro acc i
      simp only [scanEndSteps, scanEnd]
      by_cases h : braceStep acc c = 0
      · rw [if_pos h, if_pos h]
        simp
      · rw [if_neg h, if_neg h]
        have := ih (braceStep acc c) (i + 1)
        exact ⟨by simpa using Nat.succ_le_succ this.1, this.2⟩


theorem firstIndexOf_eq_none_iff (pat : List Char) (hpat : pat ≠ [])
    (text : List Char) :
    firstIndexOf pat text = none ↔ ∀ k, matchesAt pat (text.drop k) = false :=
  firstIndexOfAux_eq_none_iff pat hpat text 0

theorem firstIndexOf_eq_some_iff (pat : List Char) (hpat : pat ≠ [])
    (text : List Char) (j : Nat) :
    firstIndexOf pat text = some j ↔
      matchesAt pat (text.drop j) = true ∧
      ∀ m, m < j → matchesAt pat (text.drop m) = false := by
  unfold firstIndexOf
  rw [firstIndexOfAux_eq_some_iff pat hpat text 0 j]
  constructor
  · rintro ⟨k, hjk, hmk, hmin⟩
    have hk : k = j := by omega
    subst hk
    exact ⟨hmk, hmin⟩
  · rintro ⟨hmk, hmin⟩
    exact ⟨j, by omega, hmk, hmin⟩

theorem parseXzpMetadata_eq_noMarker {α : Type} (jsonParse : List Char → Option α)
    (text : List Char) (h : firstIndexOf metaverMarker text = none) :
    parseXzpMetadata jsonParse text = XzpResult.noMarker := by
  unfold parseXzpMetadata
  rw [h]

theorem parseXzpMetadata_eq_of_start {α : Type} (jsonParse : List Char → Option α)
    (text : List Char) (s : Nat) (h : firstIndexOf metaverMarker text = some s) :
    parseXzpMetadata jsonParse text =
      (match scanEnd (text.drop s) 0 s with
       | none => XzpResult.noEnd
       | some endIndex =>
           match jsonParse ((text.take (endIndex + 1)).drop s) with
           | some metadata => XzpResult.ok metadata
           | none => XzpResult.badJson) := by
  unfold parseXzpMetadata
  rw [h]

theorem parseXzpMetadata_eq_noEnd_of {α : Type} (jsonParse : List Char → Option α)
    (text : List Char) (s : Nat) (hstart : firstIndexOf metaverMarker text = some s)
    (hscan : scanEnd (text.drop s) 0 s = none) :
    parseXzpMetadata jsonParse text = XzpResult.noEnd := by
  rw [parseXzpMetadata_eq_of_start jsonParse text s hstart, hscan]

theorem parseXzpMetadata_eq_parse_of {α : Type} (jsonParse : List Char → Option α)
    (text : List Char) (s e : Nat)
    (hstart : firstIndexOf metaverMarker text = some s)
    (hscan : scanEnd (text.drop s) 0 s = some e) :
    parseXzpMetadata jsonParse text =
      (match jsonParse ((text.take (e + 1)).drop s) with
       | some metadata => XzpResult.ok metadata
       | none => XzpResult.badJson) := by
  rw [parseXzpMetadata_eq_of_start jsonParse text s hstart, hscan]

theorem parseXzpMetadata_ne_noMarker_of {α : Type} (jsonParse : List Char → Option α)
    (text : List Char) (s : Nat) (hstart : firstIndexOf metaverMarker text = some s) :
    parseXzpMetadata jsonParse text ≠ XzpResult.noMarker := by
  rcases hscan : scanEnd (text.drop s) 0 s with - | e
  · rw [parseXzpMetadata_eq_noEnd_of jsonParse text s hstart hscan]
    simp
  · rw [parseXzpMetadata_eq_parse_of jsonParse text s e hstart hscan]
    rcases hp : jsonParse ((text.take (e + 1)).drop s) with - | m <;> simp

theorem parseXzpMetadata_ne_noEnd_of {α : Type} (jsonParse : List Char → Option α)
    (text : List Char) (s e : Nat)
    (hstart : firstIndexOf metaverMarker text = some s)
    (hscan : scanEnd (text.drop s) 0 s = some e) :
    parseXzpMetadata jsonParse text ≠ XzpResult.noEnd := by
  rw [parseXzpMetadata_eq_parse_of jsonParse text s e hstart hscan]
  rcases hp : jsonParse ((text.take (e + 1)).drop s) with - | m <;> simp

/-! ### Claim theorems for parseXzpMetadata -/

/-- C1: `parseXzpMetadata` locates the JSON object by brace-matching.
It rejects with `noMarker` exactly when the marker occurs nowhere in
the decoded text.  When the marker has a first occurrence
`startIndex` (an occurrence there and at no earlier position), the
scan rejects with `noEnd` exactly when the running brace count never
returns to zero before the end of the text; and when the scan stops
at `endIndex`, that index is the first position at or after
`startIndex` where the count returns to zero, and the result is
`JSON.parse` applied to the substring from `startIndex` to
`endIndex` inclusive: its parse on success, the `badJson` rejection
when the substring is not valid JSON. -/
theorem parseXzpMetadata_spec {α : Type} (jsonParse : List Char → Option α)
    (text : List Char) :
    ((parseXzpMetadata jsonParse text = XzpResult.noMarker ↔
        ∀ k, matchesAt metaverMarker (text.drop k) = false)
     ∧ ∀ startIndex, firstIndexOf metaverMarker text = some startIndex →
         ((matchesAt metaverMarker (text.drop startIndex) = true ∧
           ∀ m, m < startIndex → matchesAt metaverMarker (text.drop m) = false)
          ∧ (parseXzpMetadata jsonParse text = XzpResult.noEnd ↔
              ∀ k, k < (text.drop startIndex).length →
                segBraceCount (text.drop startIndex) k ≠ 0)
          ∧ ∀ endIndex, scanEnd (text.drop startIndex) 0 startIndex = some endIndex →
              ((∃ k, endIndex = startIndex + k ∧
                  k < (text.drop startIndex).length ∧
                  segBraceCount (text.drop startIndex) k = 0 ∧
                  ∀ m, m < k → segBraceCount (text.drop startIndex) m ≠ 0)
               ∧ parseXzpMetadata jsonParse text =
                   (match jsonParse ((text.take (endIndex + 1)).drop startIndex) with
                    | some metadata => XzpResult.ok metadata
                    | none => XzpResult.badJson)))) := by
  have hpat : metaverMarker ≠ [] := by simp [metaverMarker]
  constructor
  · constructor
    · intro hres
      rw [← firstIndexOf_eq_none_iff metaverMarker hpat text]
      rcases hfi : firstIndexOf metaverMarker text with - | s
      · rfl
      · exact absurd hres (parseXzpMetadata_ne_noMarker_of jsonParse text s hfi)
    · intro hall
      exact parseXzpMetadata_eq_noMarker jsonParse text
        ((firstIndexOf_eq_none_iff metaverMarker hpat text).mpr hall)
  · intro startIndex hstart
    have hchar := (firstIndexOf_eq_some_iff metaverMarker hpat text startIndex).mp hstart
    refine ⟨hchar, ?_, ?_⟩
    · constructor
      · intro hres
        rcases hscan : scanEnd (text.drop startIndex) 0 startIndex with - | e
        · intro k hk
          have := (scanEnd_none_iff (text.drop startIndex) 0 startIndex).mp hscan
          simpa [segBraceCount] using this k hk
        · exact absurd hres
            (parseXzpMetadata_ne_noEnd_of jsonParse text startIndex e hstart hscan)
      · intro hall
        rcases hscan : scanEnd (text.drop startIndex) 0 startIndex with - | e
        · exact parseXzpMetadata_eq_noEnd_of jsonParse text startIndex hstart hscan
        · have hsome := (scanEnd_some_iff (text.drop startIndex) 0 startIndex e).mp hscan
          rcases hsome with ⟨ke, hke, -, hfold, -⟩
          exact absurd hfold (by simpa [segBraceCount] using hall ke hke)
    · intro endIndex hscan
      have hsome := (scanEnd_some_iff (text.drop startIndex) 0 startIndex endIndex).mp hscan
      rcases hsome with ⟨ke, hke, hje, hfold, hminfold⟩
      refine ⟨⟨ke, by omega, hke, by simpa [segBraceCount] using hfold,
               fun m hm => by simpa [segBraceCount] using hminfold m hm⟩, ?_⟩
      exact parseXzpMetadata_eq_parse_of jsonParse text startIndex endIndex hstart hscan

/-- Concrete text for the witness: the marker followed by a closing
brace, a well-formed one-object metadata block. -/
def xzpWitnessText : List Char := metaverMarker ++ [rbrace]

/-- Witness for C1: on the concrete text `xzpWitnessText` with a JSON
parser that always fails, the marker's first occurrence is at index 0,
the scan stops at index 10, which is characterized as the first
zero-return point, and the extractor returns `badJson`. -/
theorem parseXzpMetadata_spec_witness :
    (∃ k, 10 = 0 + k ∧ k < (xzpWitnessText.drop 0).length ∧
        segBraceCount (xzpWitnessText.drop 0) k = 0 ∧
        ∀ m, m < k → segBraceCount (xzpWitnessText.drop 0) m ≠ 0)
    ∧ parseXzpMetadata (fun _ => (none : Option Unit)) xzpWitnessText =
        (match (fun _ => (none : Option Unit)) ((xzpWitnessText.take (10 + 1)).drop 0) with
         | some metadata => XzpResult.ok metadata
         | none => XzpResult.badJson) :=
  ((parseXzpMetadata_spec (fun _ => (none : Option Unit)) xzpWitnessText).2
    0 (by decide)).2.2 10 (by decide)

/-- C6: the brace-matching scan is single-pass and bounded.  For every
text and start position, the number of characters the loop examines is
at most the number of positions from the start to the end of the text,
the instrumented loop computes the same answer as the plain one (so
the bound applies to it), and the scan, a total function, returns
either a matched end index or the no-end answer. -/
theorem scanEnd_single_pass (text : List Char) (startIndex : Nat) :
    (scanEndSteps (text.drop startIndex) 0 startIndex).1 ≤ text.length - startIndex
    ∧ (scanEndSteps (text.drop startIndex) 0 startIndex).2 =
        scanEnd (text.drop startIndex) 0 startIndex
    ∧ (scanEnd (text.drop startIndex) 0 startIndex = none
       ∨ ∃ endIndex, scanEnd (text.drop startIndex) 0 startIndex = some endIndex) := by
  have h := scanEndSteps_spec (text.drop startIndex) 0 startIndex
  refine ⟨by simpa [List.length_drop] using h.1, h.2, ?_⟩
  rcases hscan : scanEnd (text.drop startIndex) 0 startIndex with - | e
  · exact Or.inl rfl
  · exact Or.inr ⟨e, rfl⟩

/-! ### JSON values and the content manifest (app.ts lines 61-96) -/

/-- JSON values as produced by `JSON.parse`. -/
inductive Json where
  | jnull
  | jbool (b : Bool)
  | jnum (n : Int)
  | jstr (s : String)
  | jarr (items : List Json)
  | jobj (fields : List (String × Json))

/-- Property lookup on a parsed JSON object.  `JSON.parse` keeps the
last of duplicate keys, hence the last matching binding. -/
def lookupLast (fields : List (String × Json)) (key : String) : Option Json :=
  ((fields.filter (fun p => p.1 == key)).map (fun p => p.2)).getLast?

/-- The comparison `existing.id === itemId` (app.ts lines 284, 316,
349) on one non-null manifest entry: an object whose `id` property is
that exact string compares true; on any other non-null value
(primitives box, arrays carry no `id`) the property access yields
`undefined` and the strict comparison is false.  The JSON value
`null`, on which `existing.id` throws a `TypeError` instead, is
handled by `dupCheck` before this comparison is consulted. -/
def entryMatches (itemId : String) : Json → Bool
  | Json.jobj fields =>
      match lookupLast fields "id" with
      | some (Json.jstr s) => s == itemId
      | _ => false
  | _ => false

/-- Whether a manifest entry is the JSON value `null`, whose `.id`
access throws. -/
def isNullEntry : Json → Bool
  | Json.jnull => true
  | _ => false

/-- The scan `existingContentList.some(existing => existing.id ===
itemId)` (app.ts lines 284, 316, 349).  Entries are visited in order:
a `null` entry makes `existing.id` throw a `TypeError` that
propagates out of `handleAddToQueue` (`Except.error ()`), a matching
entry stops the scan with `true`, and a completed scan yields
`false`. -/
def dupCheck (itemId : String) : List Json → Except Unit Bool
  | [] => Except.ok false
  | e :: rest =>
      if isNullEntry e then Except.error ()
      else if entryMatches itemId e then Except.ok true
      else dupCheck itemId rest

/-! ### Identifier sanitization (app.ts lines 280-281, 312-313, 345-346) -/

/-- Behaviour of `String.prototype.toLowerCase` on one character (ASCII range). -/
def jsToLower (c : Char) : Char :=
  if 'A' ≤ c ∧ c ≤ 'Z' then Char.ofNat (c.toNat + 32) else c

/-- The character class kept by `replace(/[^a-z0-9]/g, '')`. -/
def isKeptChar (c : Char) : Bool :=
  decide (('a' ≤ c ∧ c ≤ 'z') ∨ ('0' ≤ c ∧ c ≤ '9'))

/-- Sanitization `s.toLowerCase().replace(/[^a-z0-9]/g, '')`. -/
def sanitize (s : String) : String :=
  String.mk ((s.data.map jsToLower).filter isKeptChar)

/-! ### Submission items and the queue (app.ts lines 5-13, 255-370) -/

/-- The three submission types of the `type` select. -/
inductive SubType where
  | background
  | skin
  | coverflow
deriving DecidableEq, Repr

/-- An uploaded `File`: its `name` and `size` (content enters only
through the base64 encoder modelled in `ApiBehavior`). -/
structure FileData where
  fname : String
  size : Nat
deriving DecidableEq, Repr

/-- One element of `SubmissionItem.files`. -/
structure QueueFile where
  file : FileData
  desiredPath : String
  maxSize : Nat
deriving DecidableEq, Repr

/-- The fields of `currentSkinMetadata` that `handleAddToQueue` reads. -/
structure SkinMeta where
  skinname : String
  author : String
deriving DecidableEq, Repr

/-- The fields of `currentCoverflowMetadata` that `handleAddToQueue`
reads (the parsed `info` object). -/
structure CfMeta where
  name : String
  author : String
deriving DecidableEq, Repr

/-- A queued submission (interface `SubmissionItem`). -/
structure SubmissionItem where
  id : Nat
  type : SubType
  name : String
  author : String
  website : Option String
  metadata : Option (SkinMeta ⊕ CfMeta)
  files : List QueueFile
deriving DecidableEq, Repr

/-- The form and parsed-metadata state read by `handleAddToQueue`: the
selected type (`none` for the empty selection), the three forms'
inputs, the `dataset.maxSize` attributes (already through `parseInt`
with the `'0'` default), and the two parsed-metadata globals. -/
structure AddInputs where
  type : Option SubType
  bgName : String
  bgAuthor : String
  bgImage : Option FileData
  bgMaxSize : Nat
  skinFile : Option FileData
  skinShot : Option FileData
  skinWebsite : String
  skinMaxSize : Nat
  skinShotMaxSize : Nat
  cfFile : Option FileData
  cfShot : Option FileData
  cfWebsite : String
  cfMaxSize : Nat
  cfShotMaxSize : Nat
  skinMeta : Option SkinMeta
  cfMeta : Option CfMeta

/-- The mutable state `handleAddToQueue` touches. -/
structure AddState where
  existingContentList : List Json
  submissionQueue : List SubmissionItem
  nextItemId : Nat

/-- Outcome of one `handleAddToQueue` run: the early-return statuses,
the duplicate error, the `TypeError` thrown by `existing.id` when the
duplicate scan reaches a `null` manifest entry (it propagates out of
the function, so nothing is appended and no status is shown), or the
appended item (app.ts lines 255-370; the skin branch throws instead
of showing a status, line 308). -/
inductive AddResult where
  | noType
  | bgMissingFields
  | skinThrow
  | cfMissingFields
  | nullEntryError
  | duplicate (itemId : String)
  | added (itemId : String) (item : SubmissionItem)
deriving DecidableEq, Repr

/-- The `type === 'background'` branch (app.ts lines 266-296). -/
def addBackground (inp : AddInputs) (st : AddState) : AddResult × AddState :=
  match inp.bgImage with
  | none => (AddResult.bgMissingFields, st)
  | some imageFile =>
      if inp.bgName = "" ∨ inp.bgAuthor = "" then (AddResult.bgMissingFields, st)
      else
        let sanitizedName := sanitize inp.bgName
        let sanitizedAuthor := sanitize inp.bgAuthor
        let itemId := "bg." ++ sanitizedAuthor ++ "." ++ sanitizedName
        match dupCheck itemId st.existingContentList with
        | Except.error _ => (AddResult.nullEntryError, st)
        | Except.ok true => (AddResult.duplicate itemId, st)
        | Except.ok false =>
          let item : SubmissionItem :=
            { id := st.nextItemId, type := SubType.background,
              name := inp.bgName, author := inp.bgAuthor, website := none,
              metadata := none,
              files := [{ file := imageFile,
                          desiredPath := "repo/backgrounds/bg." ++ sanitizedAuthor
                            ++ "." ++ sanitizedName ++ ".jpg",
                          maxSize := inp.bgMaxSize }] }
          (AddResult.added itemId item,
           { st with submissionQueue := st.submissionQueue ++ [item],
                     nextItemId := st.nextItemId + 1 })

/-- The `type === 'skin'` branch (app.ts lines 298-328). -/
def addSkin (inp : AddInputs) (st : AddState) : AddResult × AddState :=
  match inp.skinFile, inp.skinShot, inp.skinMeta with
  | some skinFile, some screenshotFile, some meta =>
      if inp.skinWebsite = "" then (AddResult.skinThrow, st)
      else
        let sanitizedName := sanitize meta.skinname
        let sanitizedAuthor := sanitize meta.author
        let itemId := "skin." ++ sanitizedAuthor ++ "." ++ sanitizedName
        match dupCheck itemId st.existingContentList with
        | Except.error _ => (AddResult.nullEntryError, st)
        | Except.ok true => (AddResult.duplicate itemId, st)
        | Except.ok false =>
          let item : SubmissionItem :=
            { id := st.nextItemId, type := SubType.skin,
              name := meta.skinname, author := meta.author,
              website := some inp.skinWebsite,
              metadata := some (Sum.inl meta),
              files := [{ file := skinFile,
                          desiredPath := "repo/skins/skin." ++ sanitizedAuthor
                            ++ "." ++ sanitizedName ++ ".xzp",
                          maxSize := inp.skinMaxSize },
                        { file := screenshotFile,
                          desiredPath := "repo/skins/skin." ++ sanitizedAuthor
                            ++ "." ++ sanitizedName ++ ".jpg",
                          maxSize := inp.skinShotMaxSize }] }
          (AddResult.added itemId item,
           { st with submissionQueue := st.submissionQueue ++ [item],
                     nextItemId := st.nextItemId + 1 })
  | _, _, _ => (AddResult.skinThrow, st)

/-- The `type === 'coverflow'` branch (app.ts lines 330-361); the
website field is not validated there. -/
def addCoverflow (inp : AddInputs) (st : AddState) : AddResult × AddState :=
  match inp.cfFile, inp.cfShot, inp.cfMeta with
  | some coverflowFile, some screenshotFile, some meta =>
      let sanitizedName := sanitize meta.name
      let sanitizedAuthor := sanitize meta.author
      let itemId := "cf." ++ sanitizedAuthor ++ "." ++ sanitizedName
      match dupCheck itemId st.existingContentList with
      | Except.error _ => (AddResult.nullEntryError, st)
      | Except.ok true => (AddResult.duplicate itemId, st)
      | Except.ok false =>
        let item : SubmissionItem :=
          { id := st.nextItemId, type := SubType.coverflow,
            name := meta.name, author := meta.author,
            website := some inp.cfWebsite,
            metadata := some (Sum.inr meta),
            files := [{ file := coverflowFile,
                        desiredPath := "repo/coverflows/cf." ++ sanitizedAuthor
                          ++ "." ++ sanitizedName ++ ".cfljson",
                        maxSize := inp.cfMaxSize },
                      { file := screenshotFile,
                        desiredPath := "repo/coverflows/cf." ++ sanitizedAuthor
                          ++ "." ++ sanitizedName ++ ".jpg",
                        maxSize := inp.cfShotMaxSize }] }
        (AddResult.added itemId item,
         { st with submissionQueue := st.submissionQueue ++ [item],
                   nextItemId := st.nextItemId + 1 })
  | _, _, _ => (AddResult.cfMissingFields, st)

/-- app.ts lines 255-370: dispatch on the selected type; `type` empty
shows the select-a-type error and leaves the state alone. -/
def handleAddToQueue (inp : AddInputs) (st : AddState) : AddResult × AddState :=
  match inp.type with
  | none => (AddResult.noType, st)
  | some SubType.background => addBackground inp st
  | some SubType.skin => addSkin inp st
  | some SubType.coverflow => addCoverflow inp st

/-- The canonical identifier `handleAddToQueue` derives when the
selected form's validation passes, `none` when an early return fires
before the derivation. -/
def derivedId (inp : AddInputs) : Option String :=
  match inp.type with
  | none => none
  | some SubType.background =>
      match inp.bgImage with
      | none => none
      | some _ =>
          if inp.bgName = "" ∨ inp.bgAuthor = "" then none
          else some ("bg." ++ sanitize inp.bgAuthor ++ "." ++ sanitize inp.bgName)
  | some SubType.skin =>
      match inp.skinFile, inp.skinShot, inp.skinMeta with
      | some _, some _, some meta =>
          if inp.skinWebsite = "" then none
          else some ("skin." ++ sanitize meta.author ++ "." ++ sanitize meta.skinname)
      | _, _, _ => none
  | some SubType.coverflow =>
      match inp.cfFile, inp.cfShot, inp.cfMeta with
      | some _, some _, some meta =>
          some ("cf." ++ sanitize meta.author ++ "." ++ sanitize meta.name)
      | _, _, _ => none

/-! ### Claim theorems for handleAddToQueue -/

theorem sanitize_chars (s : String) :
    ∀ c ∈ (sanitize s).data,
      ((('a' ≤ c ∧ c ≤ 'z') ∨ ('0' ≤ c ∧ c ≤ '9')) ∧ c ∈ s.data.map jsToLower) := by
  intro c hc
  have hc' : c ∈ (s.data.map jsToLower).filter isKeptChar := hc
  have hmem := List.mem_filter.mp hc'
  exact ⟨by simpa [isKeptChar] using hmem.2, hmem.1⟩

/-- C2: whenever `handleAddToQueue` appends an item, the identifier it
derived is `<prefix>.<sanitizedAuthor>.<sanitizedName>` with prefix
`bg`, `skin` or `cf` according to the selected type, where the name
and author come from the form fields for backgrounds and from the
parsed metadata for skins and coverflows; and sanitization lowercases
(every kept character comes from the lowercased string) and keeps only
characters in `[a-z0-9]`. -/
theorem handleAddToQueue_identifier (inp : AddInputs) (st : AddState)
    (itemId : String) (item : SubmissionItem)
    (h : (handleAddToQueue inp st).1 = AddResult.added itemId item) :
    (inp.type = some SubType.background →
       itemId = "bg." ++ sanitize inp.bgAuthor ++ "." ++ sanitize inp.bgName)
    ∧ (∀ meta, inp.type = some SubType.skin → inp.skinMeta = some meta →
        itemId = "skin." ++ sanitize meta.author ++ "." ++ sanitize meta.skinname)
    ∧ (∀ meta, inp.type = some SubType.coverflow → inp.cfMeta = some meta →
        itemId = "cf." ++ sanitize meta.author ++ "." ++ sanitize meta.name)
    ∧ ∀ s : String, ∀ c ∈ (sanitize s).data,
        ((('a' ≤ c ∧ c ≤ 'z') ∨ ('0' ≤ c ∧ c ≤ '9')) ∧ c ∈ s.data.map jsToLower) := by
  refine ⟨?_, ?_, ?_, sanitize_chars⟩
  · intro hty
    simp only [handleAddToQueue, hty] at h
    rcases him : inp.bgImage with - | imageFile
    · simp [addBackground, him] at h
    · by_cases hval : inp.bgName = "" ∨ inp.bgAuthor = ""
      · simp [addBackground, him, hval] at h
      · rcases hdup : dupCheck ("bg." ++ sanitize inp.bgAuthor ++ "."
              ++ sanitize inp.bgName) st.existingContentList with u | b
        · simp [addBackground, him, hval, hdup] at h
        · cases b
          · simp [addBackground, him, hval, hdup] at h
            exact h.1.symm
          · simp [addBackground, him, hval, hdup] at h
  · intro meta hty hmeta
    simp only [handleAddToQueue, hty] at h
    rcases hsf : inp.skinFile with - | skinFile
    · simp [addSkin, hsf] at h
    · rcases hss : inp.skinShot with - | screenshotFile
      · simp [addSkin, hsf, hss] at h
      · by_cases hweb : inp.skinWebsite = ""
        · simp [addSkin, hsf, hss, hmeta, hweb] at h
        · rcases hdup : dupCheck ("skin." ++ sanitize meta.author ++ "."
                ++ sanitize meta.skinname) st.existingContentList with u | b
          · simp [addSkin, hsf, hss, hmeta, hweb, hdup] at h
          · cases b
            · simp [addSkin, hsf, hss, hmeta, hweb, hdup] at h
              exact h.1.symm
            · simp [addSkin, hsf, hss, hmeta, hweb, hdup] at h
  · intro meta hty hmeta
    simp only [handleAddToQueue, hty] at h
    rcases hcf : inp.cfFile with - | coverflowFile
    · simp [addCoverflow, hcf] at h
    · rcases hcs : inp.cfShot with - | screenshotFile
      · simp [addCoverflow, hcf, hcs] at h
      · rcases hdup : dupCheck ("cf." ++ sanitize meta.author ++ "."
              ++ sanitize meta.name) st.existingContentList with u | b
        · simp [addCoverflow, hcf, hcs, hmeta, hdup] at h
        · cases b
          · simp [addCoverflow, hcf, hcs, hmeta, hdup] at h
            exact h.1.symm
          · simp [addCoverflow, hcf, hcs, hmeta, hdup] at h

theorem dupCheck_eq_any_of_no_null (itemId : String) :
    ∀ l : List Json, (∀ e ∈ l, e ≠ Json.jnull) →
      dupCheck itemId l = Except.ok (l.any (entryMatches itemId)) := by
  intro l
  induction l with
  | nil => intro _; rfl
  | cons e rest ih =>
      intro hnn
      have hnne : isNullEntry e = false := by
        cases e with
        | jnull => exact absurd rfl (hnn Json.jnull (by simp))
        | jbool b => rfl
        | jnum n => rfl
        | jstr s => rfl
        | jarr items => rfl
        | jobj fields => rfl
      have hrest := ih (fun x hx => hnn x (by simp [hx]))
      by_cases hm : entryMatches itemId e = true
      · simp [dupCheck, hnne, hm]
      · have hm' : entryMatches itemId e = false := by simpa using hm
        simp [dupCheck, hnne, hm', hrest]

/-- C3 (amended): once `handleAddToQueue` derives an identifier, the
duplicate scan consults only the fetched manifest.  When the scan
stops at a matching entry it answers the duplicate error and leaves
the whole state (in particular the submission queue) untouched; when
the scan completes without a match the new item is appended at the
end of the queue; and when the scan reaches a `null` manifest entry
before finding a match, `existing.id` throws a `TypeError`, the
operation aborts, and the state is likewise untouched.  On manifests
without `null` entries the scan agrees with the plain
entry-by-entry match, so the original claim holds there. -/
theorem handleAddToQueue_duplicate_check (inp : AddInputs) (st : AddState)
    (itemId : String) (hid : derivedId inp = some itemId) :
    (dupCheck itemId st.existingContentList = Except.ok true →
        handleAddToQueue inp st = (AddResult.duplicate itemId, st))
    ∧ (dupCheck itemId st.existingContentList = Except.ok false →
        ∃ item, handleAddToQueue inp st =
          (AddResult.added itemId item,
           { st with submissionQueue := st.submissionQueue ++ [item],
                     nextItemId := st.nextItemId + 1 }))
    ∧ (dupCheck itemId st.existingContentList = Except.error () →
        handleAddToQueue inp st = (AddResult.nullEntryError, st))
    ∧ ((∀ e ∈ st.existingContentList, e ≠ Json.jnull) →
        dupCheck itemId st.existingContentList =
          Except.ok (st.existingContentList.any (entryMatches itemId))) := by
  have hmain : (dupCheck itemId st.existingContentList = Except.ok true →
        handleAddToQueue inp st = (AddResult.duplicate itemId, st))
      ∧ (dupCheck itemId st.existingContentList = Except.ok false →
        ∃ item, handleAddToQueue inp st =
          (AddResult.added itemId item,
           { st with submissionQueue := st.submissionQueue ++ [item],
                     nextItemId := st.nextItemId + 1 }))
      ∧ (dupCheck itemId st.existingContentList = Except.error () →
        handleAddToQueue inp st = (AddResult.nullEntryError, st)) := by
    rcases hty : inp.type with - | ty
    · simp [derivedId, hty] at hid
    · cases ty with
      | background =>
          rcases him : inp.bgImage with - | imageFile
          · simp [derivedId, hty, him] at hid
          · by_cases hval : inp.bgName = "" ∨ inp.bgAuthor = ""
            · simp [derivedId, hty, him, hval] at hid
            · have hid' : "bg." ++ sanitize inp.bgAuthor ++ "." ++ sanitize inp.bgName = itemId := by
                simpa [derivedId, hty, him, hval] using hid
              subst hid'
              refine ⟨?_, ?_, ?_⟩
              · intro hdup
                simp [handleAddToQueue, hty, addBackground, him, hval, hdup]
              · intro hdup
                refine ⟨{ id := st.nextItemId, type := SubType.background,
                          name := inp.bgName, author := inp.bgAuthor, website := none,
                          metadata := none,
                          files := [{ file := imageFile,
                                      desiredPath := "repo/backgrounds/bg."
                                        ++ sanitize inp.bgAuthor ++ "."
                                        ++ sanitize inp.bgName ++ ".jpg",
                                      maxSize := inp.bgMaxSize }] }, ?_⟩
                simp [handleAddToQueue, hty, addBackground, him, hval, hdup]
              · intro hdup
                simp [handleAddToQueue, hty, addBackground, him, hval, hdup]
      | skin =>
          rcases hsf : inp.skinFile with - | skinFile
          · simp [derivedId, hty, hsf] at hid
          · rcases hss : inp.skinShot with - | screenshotFile
            · simp [derivedId, hty, hsf, hss] at hid
            · rcases hsm : inp.skinMeta with - | meta
              · simp [derivedId, hty, hsf, hss, hsm] at hid
              · by_cases hweb : inp.skinWebsite = ""
                · simp [derivedId, hty, hsf, hss, hsm, hweb] at hid
                · have hid' : "skin." ++ sanitize meta.author ++ "." ++ sanitize meta.skinname = itemId := by
                    simpa [derivedId, hty, hsf, hss, hsm, hweb] using hid
                  subst hid'
                  refine ⟨?_, ?_, ?_⟩
                  · intro hdup
                    simp [handleAddToQueue, hty, addSkin, hsf, hss, hsm, hweb, hdup]
                  · intro hdup
                    refine ⟨{ id := st.nextItemId, type := SubType.skin,
                              name := meta.skinname, author := meta.author,
                              website := some inp.skinWebsite,
                              metadata := some (Sum.inl meta),
                              files := [{ file := skinFile,
                                          desiredPath := "repo/skins/skin."
                                            ++ sanitize meta.author ++ "."
                                            ++ sanitize meta.skinname ++ ".xzp",
                                          maxSize := inp.skinMaxSize },
                                        { file := screenshotFile,
                                          desiredPath := "repo/skins/skin."
                                            ++ sanitize meta.author ++ "."
                                            ++ sanitize meta.skinname ++ ".jpg",
                                          maxSize := inp.skinShotMaxSize }] }, ?_⟩
                    simp [handleAddToQueue, hty, addSkin, hsf, hss, hsm, hweb, hdup]
                  · intro hdup
                    simp [handleAddToQueue, hty, addSkin, hsf, hss, hsm, hweb, hdup]
      | coverflow =>
          rcases hcf : inp.cfFile with - | coverflowFile
          · simp [derivedId, hty, hcf] at hid
          · rcases hcs : inp.cfShot with - | screenshotFile
            · simp [derivedId, hty, hcf, hcs] at hid
            · rcases hcm : inp.cfMeta with - | meta
              · simp [derivedId, hty, hcf, hcs, hcm] at hid
              · have hid' : "cf." ++ sanitize meta.author ++ "." ++ sanitize meta.name = itemId := by
                  simpa [derivedId, hty, hcf, hcs, hcm] using hid
                subst hid'
                refine ⟨?_, ?_, ?_⟩
                · intro hdup
                  simp [handleAddToQueue, hty, addCoverflow, hcf, hcs, hcm, hdup]
                · intro hdup
                  refine ⟨{ id := st.nextItemId, type := SubType.coverflow,
                            name := meta.name, author := meta.author,
                            website := some inp.cfWebsite,
                            metadata := some (Sum.inr meta),
                            files := [{ file := coverflowFile,
                                        desiredPath := "repo/coverflows/cf."
                                          ++ sanitize meta.author ++ "."
                                          ++ sanitize meta.name ++ ".cfljson",
                                        maxSize := inp.cfMaxSize },
                                      { file := screenshotFile,
                                        desiredPath := "repo/coverflows/cf."
                                          ++ sanitize meta.author ++ "."
                                          ++ sanitize meta.name ++ ".jpg",
                                        maxSize := inp.cfShotMaxSize }] }, ?_⟩
                  simp [handleAddToQueue, hty, addCoverflow, hcf, hcs, hcm, hdup]
                · intro hdup
                  simp [handleAddToQueue, hty, addCoverflow, hcf, hcs, hcm, hdup]
  exact ⟨hmain.1, hmain.2.1, hmain.2.2,
    dupCheck_eq_any_of_no_null itemId st.existingContentList⟩

/-- A concrete uploaded image file for witnesses. -/
def bgWitnessFile : FileData := { fname := "photo.jpg", size := 100 }

/-- Concrete background-form inputs for witnesses: name `My BG`,
author `Dan`, an image present, everything else untouched. -/
def bgWitnessInputs : AddInputs :=
  { type := some SubType.background,
    bgName := "My BG", bgAuthor := "Dan",
    bgImage := some bgWitnessFile, bgMaxSize := 1000,
    skinFile := none, skinShot := none, skinWebsite := "",
    skinMaxSize := 0, skinShotMaxSize := 0,
    cfFile := none, cfShot := none, cfWebsite := "",
    cfMaxSize := 0, cfShotMaxSize := 0,
    skinMeta := none, cfMeta := none }

/-- Fresh state: empty manifest, empty queue, next id 0. -/
def emptyAddState : AddState :=
  { existingContentList := [], submissionQueue := [], nextItemId := 0 }

/-- The item `handleAddToQueue` builds from `bgWitnessInputs` on
`emptyAddState`. -/
def bgWitnessItem : SubmissionItem :=
  { id := 0, type := SubType.background, name := "My BG", author := "Dan",
    website := none, metadata := none,
    files := [{ file := bgWitnessFile,
                desiredPath := "repo/backgrounds/bg.dan.mybg.jpg",
                maxSize := 1000 }] }

/-- Witness for C2: on the concrete background submission the derived
identifier is `bg.dan.mybg` with `dan` and `mybg` the sanitized form
fields. -/
theorem handleAddToQueue_identifier_witness :
    (bgWitnessInputs.type = some SubType.background →
       "bg.dan.mybg" = "bg." ++ sanitize bgWitnessInputs.bgAuthor ++ "."
         ++ sanitize bgWitnessInputs.bgName)
    ∧ (∀ meta, bgWitnessInputs.type = some SubType.skin →
        bgWitnessInputs.skinMeta = some meta →
        "bg.dan.mybg" = "skin." ++ sanitize meta.author ++ "." ++ sanitize meta.skinname)
    ∧ (∀ meta, bgWitnessInputs.type = some SubType.coverflow →
        bgWitnessInputs.cfMeta = some meta →
        "bg.dan.mybg" = "cf." ++ sanitize meta.author ++ "." ++ sanitize meta.name)
    ∧ ∀ s : String, ∀ c ∈ (sanitize s).data,
        ((('a' ≤ c ∧ c ≤ 'z') ∨ ('0' ≤ c ∧ c ≤ '9')) ∧ c ∈ s.data.map jsToLower) :=
  handleAddToQueue_identifier bgWitnessInputs emptyAddState "bg.dan.mybg"
    bgWitnessItem (by decide)

/-- Witness for C3: on the empty manifest the scan completes without a
match and the concrete submission is appended. -/
theorem handleAddToQueue_duplicate_check_witness :
    ∃ item, handleAddToQueue bgWitnessInputs emptyAddState =
      (AddResult.added "bg.dan.mybg" item,
       { emptyAddState with
           submissionQueue := emptyAddState.submissionQueue ++ [item],
           nextItemId := emptyAddState.nextItemId + 1 }) :=
  (handleAddToQueue_duplicate_check bgWitnessInputs emptyAddState "bg.dan.mybg"
    (by decide)).2.1 rfl

/-- A manifest holding the single JSON value `null`, as produced by a
fetched `list.json` whose `backgrounds` array holds `null` and whose
`coverflows` and `skins` arrays are empty — a shape
`fetchExistingContentList` accepts. -/
def nullManifestState : AddState :=
  { existingContentList := [Json.jnull], submissionQueue := [], nextItemId := 0 }

/-- Counterexample for C3 as frozen: the identifier `bg.dan.mybg` is
derived, no entry of the manifest `[null]` has an `id` equal to it,
and yet the item is not appended — the duplicate scan's `existing.id`
throws a `TypeError` on the `null` entry, the run aborts with the
propagated exception, and the whole state is left untouched. -/
theorem handleAddToQueue_duplicate_check_counterexample :
    derivedId bgWitnessInputs = some "bg.dan.mybg"
    ∧ nullManifestState.existingContentList.all
        (fun e => !(entryMatches "bg.dan.mybg" e)) = true
    ∧ (handleAddToQueue bgWitnessInputs nullManifestState).1 =
        AddResult.nullEntryError
    ∧ (handleAddToQueue bgWitnessInputs nullManifestState).2.submissionQueue = [] :=
  ⟨by decide, by decide, by decide, by decide⟩

/-- The item the second identical add produces (only the running id
differs). -/
def bgWitnessItemSnd : SubmissionItem :=
  { bgWitnessItem with id := 1 }

/-- C9: the duplicate check never looks at the local queue.  Adding
the same background twice against an empty manifest succeeds both
times — each run answers `added` with the same identifier
`bg.dan.mybg`, which is not in the manifest — and afterwards the queue
holds two items whose (single) files target the same `desiredPath`. -/
theorem handleAddToQueue_no_local_duplicate_check :
    (handleAddToQueue bgWitnessInputs emptyAddState).1 =
        AddResult.added "bg.dan.mybg" bgWitnessItem
    ∧ emptyAddState.existingContentList.any (entryMatches "bg.dan.mybg") = false
    ∧ (handleAddToQueue bgWitnessInputs
         (handleAddToQueue bgWitnessInputs emptyAddState).2).1 =
        AddResult.added "bg.dan.mybg" bgWitnessItemSnd
    ∧ (handleAddToQueue bgWitnessInputs
         (handleAddToQueue bgWitnessInputs emptyAddState).2).2.submissionQueue =
        [bgWitnessItem, bgWitnessItemSnd]
    ∧ (bgWitnessItem.files.map QueueFile.desiredPath =
         bgWitnessItemSnd.files.map QueueFile.desiredPath) := by
  refine ⟨by decide, by decide, by decide, by decide, by decide⟩

/-! ### fetchExistingContentList (app.ts lines 63-96) -/

/-- The response of `octokit.repos.getContent`, reduced to what the
function reads: `content` is `some` exactly when `'content' in data`
holds with a string value. -/
structure GetContentData where
  content : Option String

/-- app.ts lines 76-79: truthy, `typeof === 'object'`, and the three
`Array.isArray` checks (a parsed array has none of the three
properties, `null` is falsy, and primitives are not objects). -/
def expectedListShape : Json → Bool
  | Json.jobj fields =>
      (match lookupLast fields "backgrounds" with
       | some (Json.jarr _) => true
       | _ => false)
      && (match lookupLast fields "coverflows" with
          | some (Json.jarr _) => true
          | _ => false)
      && (match lookupLast fields "skins" with
          | some (Json.jarr _) => true
          | _ => false)
  | _ => false

/-- app.ts lines 81-85: the spread of the three arrays. -/
def manifestEntries : Json → List Json
  | Json.jobj fields =>
      (match lookupLast fields "backgrounds" with
       | some (Json.jarr xs) => xs
       | _ => [])
      ++ (match lookupLast fields "coverflows" with
          | some (Json.jarr xs) => xs
          | _ => [])
      ++ (match lookupLast fields "skins" with
          | some (Json.jarr xs) => xs
          | _ => [])
  | _ => []

/-- app.ts lines 63-96: the new value of `existingContentList` after
one run.  `res` is the `getContent` call's outcome (`error` when it
throws), `atobFn` and `parseFn` are the platform's `atob` and
`JSON.parse` (`none` when they throw, which the `catch` turns into the
empty list).  When the response has no string `content`, the function
returns without assigning, keeping `old`. -/
def fetchExistingContentList (atobFn : String → Option String)
    (parseFn : String → Option Json) (old : List Json)
    (res : Except Unit GetContentData) : List Json :=
  match res with
  | Except.error _ => []
  | Except.ok d =>
      match d.content with
      | none => old
      | some c =>
          match atobFn c with
          | none => []
          | some s =>
              match parseFn s with
              | none => []
              | some v =>
                  if expectedListShape v then manifestEntries v else []

theorem handleAddToQueue_duplicate_imp (inp : AddInputs) (st : AddState)
    (itemId : String)
    (h : (handleAddToQueue inp st).1 = AddResult.duplicate itemId) :
    dupCheck itemId st.existingContentList = Except.ok true := by
  rcases hty : inp.type with - | ty
  · simp [handleAddToQueue, hty] at h
  · cases ty with
    | background =>
        rcases him : inp.bgImage with - | imageFile
        · simp [handleAddToQueue, hty, addBackground, him] at h
        · by_cases hval : inp.bgName = "" ∨ inp.bgAuthor = ""
          · simp [handleAddToQueue, hty, addBackground, him, hval] at h
          · rcases hdup : dupCheck ("bg." ++ sanitize inp.bgAuthor ++ "."
                ++ sanitize inp.bgName) st.existingContentList with u | b
            · simp [handleAddToQueue, hty, addBackground, him, hval, hdup] at h
            · cases b
              · simp [handleAddToQueue, hty, addBackground, him, hval, hdup] at h
              · have hidm : "bg." ++ sanitize inp.bgAuthor ++ "." ++ sanitize inp.bgName = itemId := by
                  simpa [handleAddToQueue, hty, addBackground, him, hval, hdup] using h
                subst hidm
                exact hdup
    | skin =>
        rcases hsf : inp.skinFile with - | skinFile
        · simp [handleAddToQueue, hty, addSkin, hsf] at h
        · rcases hss : inp.skinShot with - | screenshotFile
          · simp [handleAddToQueue, hty, addSkin, hsf, hss] at h
          · rcases hsm : inp.skinMeta with - | meta
            · simp [handleAddToQueue, hty, addSkin, hsf, hss, hsm] at h
            · by_cases hweb : inp.skinWebsite = ""
              · simp [handleAddToQueue, hty, addSkin, hsf, hss, hsm, hweb] at h
              · rcases hdup : dupCheck ("skin." ++ sanitize meta.author ++ "."
                    ++ sanitize meta.skinname) st.existingContentList with u | b
                · simp [handleAddToQueue, hty, addSkin, hsf, hss, hsm, hweb, hdup] at h
                · cases b
                  · simp [handleAddToQueue, hty, addSkin, hsf, hss, hsm, hweb, hdup] at h
                  · have hidm : "skin." ++ sanitize meta.author ++ "." ++ sanitize meta.skinname = itemId := by
                      simpa [handleAddToQueue, hty, addSkin, hsf, hss, hsm, hweb, hdup] using h
                    subst hidm
                    exact hdup
    | coverflow =>
        rcases hcf : inp.cfFile with - | coverflowFile
        · simp [handleAddToQueue, hty, addCoverflow, hcf] at h
        · rcases hcs : inp.cfShot with - | screenshotFile
          · simp [handleAddToQueue, hty, addCoverflow, hcf, hcs] at h
          · rcases hcm : inp.cfMeta with - | meta
            · simp [handleAddToQueue, hty, addCoverflow, hcf, hcs, hcm] at h
            · rcases hdup : dupCheck ("cf." ++ sanitize meta.author ++ "."
                  ++ sanitize meta.name) st.existingContentList with u | b
              · simp [handleAddToQueue, hty, addCoverflow, hcf, hcs, hcm, hdup] at h
              · cases b
                · simp [handleAddToQueue, hty, addCoverflow, hcf, hcs, hcm, hdup] at h
                · have hidm : "cf." ++ sanitize meta.author ++ "." ++ sanitize meta.name = itemId := by
                    simpa [handleAddToQueue, hty, addCoverflow, hcf, hcs, hcm, hdup] using h
                  subst hidm
                  exact hdup

/-- C10: every failure mode of `fetchExistingContentList` — the fetch
throwing, `atob` failing to decode, `JSON.parse` failing, or a parsed
value without the three expected arrays — leaves the manifest empty,
and against an empty manifest no `handleAddToQueue` run can answer the
duplicate error, whatever the identifier. -/
theorem fetchExistingContentList_failure (atobFn : String → Option String)
    (parseFn : String → Option Json) (old : List Json)
    (res : Except Unit GetContentData) :
    (∀ e : Unit, res = Except.error e →
        fetchExistingContentList atobFn parseFn old res = [])
    ∧ (∀ d c, res = Except.ok d → d.content = some c → atobFn c = none →
        fetchExistingContentList atobFn parseFn old res = [])
    ∧ (∀ d c s, res = Except.ok d → d.content = some c → atobFn c = some s →
        parseFn s = none →
        fetchExistingContentList atobFn parseFn old res = [])
    ∧ (∀ d c s v, res = Except.ok d → d.content = some c → atobFn c = some s →
        parseFn s = some v → expectedListShape v = false →
        fetchExistingContentList atobFn parseFn old res = [])
    ∧ ∀ (inp : AddInputs) (st : AddState) (itemId : String),
        st.existingContentList = [] →
        (handleAddToQueue inp st).1 ≠ AddResult.duplicate itemId := by
  refine ⟨?_, ?_, ?_, ?_, ?_⟩
  · rintro e rfl
    simp [fetchExistingContentList]
  · rintro d c rfl hc ha
    simp [fetchExistingContentList, hc, ha]
  · rintro d c s rfl hc ha hp
    simp [fetchExistingContentList, hc, ha, hp]
  · rintro d c s v rfl hc ha hp hshape
    simp [fetchExistingContentList, hc, ha, hp, hshape]
  · intro inp st itemId hlist h
    have hdup := handleAddToQueue_duplicate_imp inp st itemId h
    rw [hlist] at hdup
    simp [dupCheck] at hdup

/-- Witness for C10: a throwing fetch yields the empty manifest. -/
theorem fetchExistingContentList_failure_witness :
    fetchExistingContentList (fun _ => none) (fun _ => none)
      [Json.jnull] (Except.error ()) = [] :=
  (fetchExistingContentList_failure (fun _ => none) (fun _ => none)
    [Json.jnull] (Except.error ())).1 () rfl

/-! ### createPullRequest (app.ts lines 390-464) -/

/-- app.ts line 23. -/
def GITHUB_REPO_OWNER : String := "DanielmGM"

/-- app.ts line 24. -/
def GITHUB_REPO_NAME : String := "AuroraSkins"

/-- app.ts line 20: `process.env.GITHUB_TARGET_BRANCH || 'main'` (the
empty string is falsy). -/
def targetBranch (envTarget : Option String) : String :=
  match envTarget with
  | none => "main"
  | some s => if s = "" then "main" else s

/-- One GitHub REST call issued by `createPullRequest`, with the
arguments the code passes. -/
inductive ApiCall where
  | createFork (owner repo : String)
  | getRepo (owner repo : String)
  | getRef (owner repo ref : String)
  | createRef (owner repo ref sha : String)
  | createOrUpdateFileContents (owner repo path message content branch : String)
  | createPull (owner repo title body head base : String)
deriving DecidableEq, Repr

/-- Oracle for the remote side: whether each step succeeds and the
data a successful step returns.  `encode` is `readFileAsBase64`
(`none` when the reader errors); `commitOk i` answers the `i`-th
per-file commit call. -/
structure ApiBehavior where
  forkOk : Bool
  forkOwner : String
  repoOk : Bool
  defaultBranch : String
  refOk : Bool
  refSha : String
  createRefOk : Bool
  encode : FileData → Option String
  commitOk : Nat → Bool
  pullOk : Bool

/-- Outcome statuses of one `createPullRequest` run; every status
other than `success` is reported through `showStatus(..., 'error')`. -/
inductive PrStatus where
  | emptyQueue
  | fileTooLarge (fname : String)
  | apiError
  | success
deriving DecidableEq, Repr

/-- One `createPullRequest` run: the REST calls issued in order, the
reported status, and the submission queue afterwards. -/
structure PrOutcome where
  calls : List ApiCall
  status : PrStatus
  queue : List SubmissionItem
deriving DecidableEq, Repr

/-- The list `submissionQueue.flatMap(item => item.files)` (app.ts line 396). -/
def allQueueFiles (queue : List SubmissionItem) : List QueueFile :=
  (queue.map SubmissionItem.files).flatten

/-- The size-validation loop (app.ts lines 399-403 and 469-475): the
name of the first file with `file.size > maxSize`, `none` when all
pass. -/
def firstTooLarge : List QueueFile → Option String
  | [] => none
  | f :: rest =>
      if f.maxSize < f.file.size then some f.file.fname
      else firstTooLarge rest

/-- Timestamp cleanup `toISOString().replace(/[-:.]/g, '')` (app.ts line 406). -/
def stripTimestampChars (s : String) : String :=
  String.mk (s.data.filter (fun c => !(decide (c = '-' ∨ c = ':' ∨ c = '.'))))

/-- The string value of the `type` discriminator. -/
def subTypeStr : SubType → String
  | SubType.background => "background"
  | SubType.skin => "skin"
  | SubType.coverflow => "coverflow"

/-- The per-file commit loop (app.ts lines 435-445): encode the file,
issue `createOrUpdateFileContents` on the fork, stop at the first
failure (a reader error issues no call; a failed call is still
issued).  Returns the calls issued and whether the loop completed. -/
def commitLoop (beh : ApiBehavior) (branchName : String) :
    List QueueFile → Nat → List ApiCall × Bool
  | [], _ => ([], true)
  | f :: rest, i =>
      match beh.encode f.file with
      | none => ([], false)
      | some content =>
          if beh.commitOk i then
            ((ApiCall.createOrUpdateFileContents beh.forkOwner GITHUB_REPO_NAME
                f.desiredPath ("Add " ++ f.file.fname) content branchName)
              :: (commitLoop beh branchName rest (i + 1)).1,
             (commitLoop beh branchName rest (i + 1)).2)
          else
            ([ApiCall.createOrUpdateFileContents beh.forkOwner GITHUB_REPO_NAME
                f.desiredPath ("Add " ++ f.file.fname) content branchName], false)

/-- The commit calls a run would issue if no call failed (the reader
errors still cut the list short, since they prevent the call from
being built at all). -/
def plannedCommitCalls (beh : ApiBehavior) (branchName : String) :
    List QueueFile → List ApiCall
  | [] => []
  | f :: rest =>
      match beh.encode f.file with
      | none => []
      | some content =>
          (ApiCall.createOrUpdateFileContents beh.forkOwner GITHUB_REPO_NAME
              f.desiredPath ("Add " ++ f.file.fname) content branchName)
            :: plannedCommitCalls beh branchName rest

/-- app.ts lines 390-464.  `isoTimestamp` is `new Date().toISOString()`;
each failing step lands in the single `catch` (status `apiError`), and
only the all-success path clears the queue. -/
def createPullRequest (beh : ApiBehavior) (envTarget : Option String)
    (isoTimestamp : String) (queue : List SubmissionItem) : PrOutcome :=
  if queue = [] then
    { calls := [], status := PrStatus.emptyQueue, queue := queue }
  else
    match firstTooLarge (allQueueFiles queue) with
    | some fname => { calls := [], status := PrStatus.fileTooLarge fname, queue := queue }
    | none =>
        let branchName := "add/submission-batch-" ++ stripTimestampChars isoTimestamp
        let prTitle := "Batch Submission: "
          ++ String.intercalate ", " (queue.map SubmissionItem.name)
        let prDescription := "This PR includes the following submissions:\n\n"
          ++ String.intercalate "\n" (queue.map (fun item =>
               "*   **" ++ item.name ++ "** by " ++ item.author ++ " ("
                 ++ subTypeStr item.type ++ ")"))
        let forkCall := ApiCall.createFork GITHUB_REPO_OWNER GITHUB_REPO_NAME
        let repoCall := ApiCall.getRepo GITHUB_REPO_OWNER GITHUB_REPO_NAME
        let refCall := ApiCall.getRef beh.forkOwner GITHUB_REPO_NAME
          ("heads/" ++ beh.defaultBranch)
        let createRefCall := ApiCall.createRef beh.forkOwner GITHUB_REPO_NAME
          ("refs/heads/" ++ branchName) beh.refSha
        let pullCall := ApiCall.createPull GITHUB_REPO_OWNER GITHUB_REPO_NAME
          prTitle prDescription (beh.forkOwner ++ ":" ++ branchName)
          (targetBranch envTarget)
        if beh.forkOk = false then
          { calls := [forkCall], status := PrStatus.apiError, queue := queue }
        else if beh.repoOk = false then
          { calls := [forkCall, repoCall], status := PrStatus.apiError, queue := queue }
        else if beh.refOk = false then
          { calls := [forkCall, repoCall, refCall], status := PrStatus.apiError,
            queue := queue }
        else if beh.createRefOk = false then
          { calls := [forkCall, repoCall, refCall, createRefCall],
            status := PrStatus.apiError, queue := queue }
        else if (commitLoop beh branchName (allQueueFiles queue) 0).2 = false then
          { calls := [forkCall, repoCall, refCall, createRefCall]
              ++ (commitLoop beh branchName (allQueueFiles queue) 0).1,
            status := PrStatus.apiError, queue := queue }
        else if beh.pullOk = false then
          { calls := [forkCall, repoCall, refCall, createRefCall]
              ++ (commitLoop beh branchName (allQueueFiles queue) 0).1 ++ [pullCall],
            status := PrStatus.apiError, queue := queue }
        else
          { calls := [forkCall, repoCall, refCall, createRefCall]
              ++ (commitLoop beh branchName (allQueueFiles queue) 0).1 ++ [pullCall],
            status := PrStatus.success, queue := [] }

/-- The forward-only sequence a fully successful run issues, computed
from the same oracle data. -/
def fullCallTrace (beh : ApiBehavior) (envTarget : Option String)
    (isoTimestamp : String) (queue : List SubmissionItem) : List ApiCall :=
  let branchName := "add/submission-batch-" ++ stripTimestampChars isoTimestamp
  let prTitle := "Batch Submission: "
    ++ String.intercalate ", " (queue.map SubmissionItem.name)
  let prDescription := "This PR includes the following submissions:\n\n"
    ++ String.intercalate "\n" (queue.map (fun item =>
         "*   **" ++ item.name ++ "** by " ++ item.author ++ " ("
           ++ subTypeStr item.type ++ ")"))
  [ApiCall.createFork GITHUB_REPO_OWNER GITHUB_REPO_NAME,
   ApiCall.getRepo GITHUB_REPO_OWNER GITHUB_REPO_NAME,
   ApiCall.getRef beh.forkOwner GITHUB_REPO_NAME ("heads/" ++ beh.defaultBranch),
   ApiCall.createRef beh.forkOwner GITHUB_REPO_NAME
     ("refs/heads/" ++ branchName) beh.refSha]
  ++ plannedCommitCalls beh branchName (allQueueFiles queue)
  ++ [ApiCall.createPull GITHUB_REPO_OWNER GITHUB_REPO_NAME
        prTitle prDescription (beh.forkOwner ++ ":" ++ branchName)
        (targetBranch envTarget)]

/-- List `xs` is how list `ys` starts. -/
def isInitialSegment {α : Type} (xs ys : List α) : Prop :=
  ∃ zs, xs ++ zs = ys

/-- Recognizer for branch-creation calls. -/
def isCreateRefCall : ApiCall → Bool
  | ApiCall.createRef _ _ _ _ => true
  | _ => false

/-- Recognizer for pull-request-creation calls. -/
def isCreatePullCall : ApiCall → Bool
  | ApiCall.createPull _ _ _ _ _ _ => true
  | _ => false

/-- Recognizer for per-file commit calls. -/
def isCommitCall : ApiCall → Bool
  | ApiCall.createOrUpdateFileContents _ _ _ _ _ _ => true
  | _ => false

theorem firstTooLarge_eq_none :
    ∀ l : List QueueFile, (∀ f ∈ l, f.file.size ≤ f.maxSize) →
      firstTooLarge l = none := by
  intro l
  induction l with
  | nil => intro _; rfl
  | cons f rest ih =>
      intro hall
      have hf := hall f (by simp)
      simp only [firstTooLarge]
      rw [if_neg (by omega)]
      exact ih (fun g hg => hall g (by simp [hg]))

theorem commitLoop_success (beh : ApiBehavior) (branchName : String) :
    ∀ (l : List QueueFile), (∀ f ∈ l, beh.encode f.file ≠ none) →
      (∀ i, beh.commitOk i = true) →
      ∀ i, commitLoop beh branchName l i =
        (plannedCommitCalls beh branchName l, true) := by
  intro l
  induction l with
  | nil => intro _ _ i; rfl
  | cons f rest ih =>
      intro henc hcommit i
      have hf := henc f (by simp)
      rcases he : beh.encode f.file with - | content
      · exact absurd he hf
      · simp [commitLoop, plannedCommitCalls, he, hcommit i,
          ih (fun g hg => henc g (by simp [hg])) hcommit (i + 1)]

theorem commitLoop_initialSegment (beh : ApiBehavior) (branchName : String) :
    ∀ (l : List QueueFile) (i : Nat),
      isInitialSegment (commitLoop beh branchName l i).1
        (plannedCommitCalls beh branchName l) := by
  intro l
  induction l with
  | nil => intro i; exact ⟨[], rfl⟩
  | cons f rest ih =>
      intro i
      rcases he : beh.encode f.file with - | content
      · exact ⟨[], by simp [commitLoop, plannedCommitCalls, he]⟩
      · by_cases hc : beh.commitOk i = true
        · rcases ih (i + 1) with ⟨zs, hz⟩
          refine ⟨zs, ?_⟩
          simp [commitLoop, plannedCommitCalls, he, hc, hz]
        · have hc' : beh.commitOk i = false := by simpa using hc
          refine ⟨plannedCommitCalls beh branchName rest, ?_⟩
          simp [commitLoop, plannedCommitCalls, he, hc']

theorem commitLoop_complete (beh : ApiBehavior) (branchName : String) :
    ∀ (l : List QueueFile) (i : Nat),
      (commitLoop beh branchName l i).2 = true →
      (commitLoop beh branchName l i).1 = plannedCommitCalls beh branchName l := by
  intro l
  induction l with
  | nil => intro i _; rfl
  | cons f rest ih =>
      intro i hdone
      rcases he : beh.encode f.file with - | content
      · simp [commitLoop, he] at hdone
      · by_cases hc : beh.commitOk i = true
        · simp only [commitLoop, he, hc] at hdone ⊢
          simp only [eq_self_iff_true, if_true] at hdone ⊢
          simp [plannedCommitCalls, he, ih (i + 1) hdone]
        · have hc' : beh.commitOk i = false := by simpa using hc
          simp [commitLoop, he, hc'] at hdone

theorem plannedCommitCalls_counts (beh : ApiBehavior) (branchName : String) :
    ∀ l : List QueueFile,
      (plannedCommitCalls beh branchName l).countP isCreateRefCall = 0
      ∧ (plannedCommitCalls beh branchName l).countP isCreatePullCall = 0
      ∧ (plannedCommitCalls beh branchName l).countP isCommitCall =
          (plannedCommitCalls beh branchName l).length := by
  intro l
  induction l with
  | nil => exact ⟨rfl, rfl, rfl⟩
  | cons f rest ih =>
      rcases he : beh.encode f.file with - | content
      · simp [plannedCommitCalls, he]
      · simp [plannedCommitCalls, he, List.countP_cons, isCreateRefCall,
          isCreatePullCall, isCommitCall, ih.1, ih.2.1, ih.2.2]

theorem plannedCommitCalls_length (beh : ApiBehavior) (branchName : String) :
    ∀ l : List QueueFile, (∀ f ∈ l, beh.encode f.file ≠ none) →
      (plannedCommitCalls beh branchName l).length = l.length := by
  intro l
  induction l with
  | nil => intro _; rfl
  | cons f rest ih =>
      intro henc
      rcases he : beh.encode f.file with - | content
      · exact absurd he (henc f (by simp))
      · simp [plannedCommitCalls, he,
          ih (fun g hg => henc g (by simp [hg]))]

theorem plannedCommitCalls_mem (beh : ApiBehavior) (branchName : String) :
    ∀ l : List QueueFile, (∀ f ∈ l, beh.encode f.file ≠ none) →
      ∀ f ∈ l, ∃ content, beh.encode f.file = some content ∧
        ApiCall.createOrUpdateFileContents beh.forkOwner GITHUB_REPO_NAME
            f.desiredPath ("Add " ++ f.file.fname) content branchName
          ∈ plannedCommitCalls beh branchName l := by
  intro l
  induction l with
  | nil => intro _ f hf; exact absurd hf (by simp)
  | cons g rest ih =>
      intro henc f hf
      rcases heg : beh.encode g.file with - | contentg
      · exact absurd heg (henc g (by simp))
      · rcases List.mem_cons.mp hf with hfg | hfr
        · subst hfg
          exact ⟨contentg, heg, by simp [plannedCommitCalls, heg]⟩
        · rcases ih (fun x hx => henc x (by simp [hx])) f hfr with ⟨content, he, hmem⟩
          exact ⟨content, he, by simp [plannedCommitCalls, heg, hmem]⟩

/-! ### Claim theorems for createPullRequest -/

/-- C4: with a non-empty queue, all size checks passing and every
remote step succeeding, `createPullRequest` issues exactly the
forward trace: the fork creation, the repo lookup, the base-ref
lookup, exactly one branch creation (on the fork owner's copy),
one commit call per queued file at that file's `desiredPath` on the
new branch, and exactly one pull-request creation whose head is
`<forkOwner>:<branchName>` and whose base is the configured target
branch (which is `main` when the environment variable is unset);
the run then reports success and clears the queue. -/
theorem createPullRequest_success_spec
    (beh : ApiBehavior) (envTarget : Option String) (ts : String)
    (queue : List SubmissionItem)
    (hne : queue ≠ [])
    (hsize : ∀ f ∈ allQueueFiles queue, f.file.size ≤ f.maxSize)
    (hfork : beh.forkOk = true) (hrepo : beh.repoOk = true)
    (href : beh.refOk = true) (hcref : beh.createRefOk = true)
    (henc : ∀ f ∈ allQueueFiles queue, beh.encode f.file ≠ none)
    (hcommit : ∀ i, beh.commitOk i = true)
    (hpull : beh.pullOk = true) :
    createPullRequest beh envTarget ts queue =
      { calls := fullCallTrace beh envTarget ts queue,
        status := PrStatus.success, queue := [] }
    ∧ (fullCallTrace beh envTarget ts queue).countP isCreateRefCall = 1
    ∧ (fullCallTrace beh envTarget ts queue).countP isCreatePullCall = 1
    ∧ (fullCallTrace beh envTarget ts queue).countP isCommitCall =
        (allQueueFiles queue).length
    ∧ (∀ f ∈ allQueueFiles queue, ∃ content, beh.encode f.file = some content ∧
        ApiCall.createOrUpdateFileContents beh.forkOwner GITHUB_REPO_NAME
            f.desiredPath ("Add " ++ f.file.fname) content
            ("add/submission-batch-" ++ stripTimestampChars ts)
          ∈ fullCallTrace beh envTarget ts queue)
    ∧ (envTarget = none → targetBranch envTarget = "main") := by
  have hft := firstTooLarge_eq_none (allQueueFiles queue) hsize
  have hcl := commitLoop_success beh
    ("add/submission-batch-" ++ stripTimestampChars ts)
    (allQueueFiles queue) henc hcommit 0
  have hcounts := plannedCommitCalls_counts beh
    ("add/submission-batch-" ++ stripTimestampChars ts) (allQueueFiles queue)
  have hlen := plannedCommitCalls_length beh
    ("add/submission-batch-" ++ stripTimestampChars ts) (allQueueFiles queue) henc
  refine ⟨?_, ?_, ?_, ?_, ?_, ?_⟩
  · simp [createPullRequest, fullCallTrace, hne, hft, hfork, hrepo, href,
      hcref, hcl, hpull]
  · simp [fullCallTrace, List.countP_append, List.countP_cons,
      isCreateRefCall, hcounts.1]
  · simp [fullCallTrace, List.countP_append, List.countP_cons,
      isCreatePullCall, hcounts.2.1]
  · simp [fullCallTrace, List.countP_append, List.countP_cons,
      isCommitCall, hcounts.2.2, hlen]
  · intro f hf
    rcases plannedCommitCalls_mem beh
        ("add/submission-batch-" ++ stripTimestampChars ts)
        (allQueueFiles queue) henc f hf with ⟨content, he, hmem⟩
    exact ⟨content, he, by simp [fullCallTrace, hmem]⟩
  · rintro rfl
    rfl

/-- An oracle on which every remote step succeeds. -/
def happyBehavior : ApiBehavior :=
  { forkOk := true, forkOwner := "contributor", repoOk := true,
    defaultBranch := "main", refOk := true, refSha := "abc123",
    createRefOk := true, encode := fun _ => some "QQ==",
    commitOk := fun _ => true, pullOk := true }

/-- Witness for C4: on a one-item queue and the all-success oracle,
the run issues exactly the forward trace, succeeds and clears the
queue. -/
theorem createPullRequest_success_spec_witness :
    createPullRequest happyBehavior none "2024-01-01T00:00:00.000Z" [bgWitnessItem] =
      { calls := fullCallTrace happyBehavior none "2024-01-01T00:00:00.000Z" [bgWitnessItem],
        status := PrStatus.success, queue := [] } :=
  (createPullRequest_success_spec happyBehavior none "2024-01-01T00:00:00.000Z"
    [bgWitnessItem] (by decide) (by decide) rfl rfl rfl rfl (by decide)
    (fun _ => rfl) rfl).1

/-- C5: however the oracle answers, every run leaves the queue exactly
as it was unless the status is `success` (so the queue is cleared only
when every step succeeded, and an error run performs no rollback of
the queue), and the calls issued are always an initial segment of the
forward-only full trace — the run stops at the failing step and issues
no compensating calls after it. -/
theorem createPullRequest_failure_spec
    (beh : ApiBehavior) (envTarget : Option String) (ts : String)
    (queue : List SubmissionItem) :
    ((createPullRequest beh envTarget ts queue).status ≠ PrStatus.success →
        (createPullRequest beh envTarget ts queue).queue = queue)
    ∧ ((createPullRequest beh envTarget ts queue).status = PrStatus.success →
        (createPullRequest beh envTarget ts queue).queue = [])
    ∧ (queue ≠ [] →
        ((createPullRequest beh envTarget ts queue).queue = [] ↔
          (createPullRequest beh envTarget ts queue).status = PrStatus.success))
    ∧ isInitialSegment (createPullRequest beh envTarget ts queue).calls
        (fullCallTrace beh envTarget ts queue) := by
  by_cases hq : queue = []
  · subst hq
    have hout : createPullRequest beh envTarget ts [] =
        { calls := [], status := PrStatus.emptyQueue, queue := [] } := by
      simp [createPullRequest]
    refine ⟨?_, ?_, ?_, ?_⟩
    · intro _
      rw [hout]
    · intro _
      rw [hout]
    · intro h
      exact absurd rfl h
    · rw [hout]
      exact ⟨fullCallTrace beh envTarget ts [], rfl⟩
  · rcases hft : firstTooLarge (allQueueFiles queue) with - | fname
    · rcases hfork : beh.forkOk with - | -
      · have hout : createPullRequest beh envTarget ts queue =
            { calls := [ApiCall.createFork GITHUB_REPO_OWNER GITHUB_REPO_NAME],
              status := PrStatus.apiError, queue := queue } := by
          simp [createPullRequest, hq, hft, hfork]
        refine ⟨?_, ?_, ?_, ?_⟩
        · intro _
          rw [hout]
        · intro h
          rw [hout] at h
          exact absurd h (by simp)
        · intro _
          rw [hout]
          simp [hq]
        · rw [hout]
          exact ⟨(fullCallTrace beh envTarget ts queue).drop 1,
            by simp [fullCallTrace]⟩
      · rcases hrepo : beh.repoOk with - | -
        · have hout : createPullRequest beh envTarget ts queue =
              { calls := [ApiCall.createFork GITHUB_REPO_OWNER GITHUB_REPO_NAME,
                          ApiCall.getRepo GITHUB_REPO_OWNER GITHUB_REPO_NAME],
                status := PrStatus.apiError, queue := queue } := by
            simp [createPullRequest, hq, hft, hfork, hrepo]
          refine ⟨?_, ?_, ?_, ?_⟩
          · intro _
            rw [hout]
          · intro h
            rw [hout] at h
            exact absurd h (by simp)
          · intro _
            rw [hout]
            simp [hq]
          · rw [hout]
            exact ⟨(fullCallTrace beh envTarget ts queue).drop 2,
              by simp [fullCallTrace]⟩
        · rcases href : beh.refOk with - | -
          · have hout : createPullRequest beh envTarget ts queue =
                { calls := [ApiCall.createFork GITHUB_REPO_OWNER GITHUB_REPO_NAME,
                            ApiCall.getRepo GITHUB_REPO_OWNER GITHUB_REPO_NAME,
                            ApiCall.getRef beh.forkOwner GITHUB_REPO_NAME
                              ("heads/" ++ beh.defaultBranch)],
                  status := PrStatus.apiError, queue := queue } := by
              simp [createPullRequest, hq, hft, hfork, hrepo, href]
            refine ⟨?_, ?_, ?_, ?_⟩
            · intro _
              rw [hout]
            · intro h
              rw [hout] at h
              exact absurd h (by simp)
            · intro _
              rw [hout]
              simp [hq]
            · rw [hout]
              exact ⟨(fullCallTrace beh envTarget ts queue).drop 3,
                by simp [fullCallTrace]⟩
          · rcases hcref : beh.createRefOk with - | -
            · have hout : createPullRequest beh envTarget ts queue =
                  { calls := [ApiCall.createFork GITHUB_REPO_OWNER GITHUB_REPO_NAME,
                              ApiCall.getRepo GITHUB_REPO_OWNER GITHUB_REPO_NAME,
                              ApiCall.getRef beh.forkOwner GITHUB_REPO_NAME
                                ("heads/" ++ beh.defaultBranch),
                              ApiCall.createRef beh.forkOwner GITHUB_REPO_NAME
                                ("refs/heads/" ++ ("add/submission-batch-"
                                  ++ stripTimestampChars ts)) beh.refSha],
                    status := PrStatus.apiError, queue := queue } := by
                simp [createPullRequest, hq, hft, hfork, hrepo, href, hcref]
              refine ⟨?_, ?_, ?_, ?_⟩
              · intro _
                rw [hout]
              · intro h
                rw [hout] at h
                exact absurd h (by simp)
              · intro _
                rw [hout]
                simp [hq]
              · rw [hout]
                exact ⟨(fullCallTrace beh envTarget ts queue).drop 4,
                  by simp [fullCallTrace]⟩
            · by_cases hcl2 : (commitLoop beh ("add/submission-batch-"
                  ++ stripTimestampChars ts) (allQueueFiles queue) 0).2 = false
              · have hout : createPullRequest beh envTarget ts queue =
                    { calls := [ApiCall.createFork GITHUB_REPO_OWNER GITHUB_REPO_NAME,
                                ApiCall.getRepo GITHUB_REPO_OWNER GITHUB_REPO_NAME,
                                ApiCall.getRef beh.forkOwner GITHUB_REPO_NAME
                                  ("heads/" ++ beh.defaultBranch),
                                ApiCall.createRef beh.forkOwner GITHUB_REPO_NAME
                                  ("refs/heads/" ++ ("add/submission-batch-"
                                    ++ stripTimestampChars ts)) beh.refSha]
                        ++ (commitLoop beh ("add/submission-batch-"
                              ++ stripTimestampChars ts) (allQueueFiles queue) 0).1,
                      status := PrStatus.apiError, queue := queue } := by
                  simp [createPullRequest, hq, hft, hfork, hrepo, href, hcref, hcl2]
                refine ⟨?_, ?_, ?_, ?_⟩
                · intro _
                  rw [hout]
                · intro h
                  rw [hout] at h
                  exact absurd h (by simp)
                · intro _
                  rw [hout]
                  simp [hq]
                · rw [hout]
                  rcases commitLoop_initialSegment beh ("add/submission-batch-"
                      ++ stripTimestampChars ts) (allQueueFiles queue) 0 with ⟨zs, hz⟩
                  refine ⟨zs ++ [ApiCall.createPull GITHUB_REPO_OWNER GITHUB_REPO_NAME
                    ("Batch Submission: "
                      ++ String.intercalate ", " (queue.map SubmissionItem.name))
                    ("This PR includes the following submissions:\n\n"
                      ++ String.intercalate "\n" (queue.map (fun item =>
                           "*   **" ++ item.name ++ "** by " ++ item.author ++ " ("
                             ++ subTypeStr item.type ++ ")")))
                    (beh.forkOwner ++ ":" ++ ("add/submission-batch-"
                      ++ stripTimestampChars ts))
                    (targetBranch envTarget)], ?_⟩
                  simp only [fullCallTrace, List.append_assoc, List.cons_append,
                    List.nil_append]
                  rw [← hz]
                  simp [List.append_assoc]
              · have hcl2' : (commitLoop beh ("add/submission-batch-"
                    ++ stripTimestampChars ts) (allQueueFiles queue) 0).2 = true := by
                  simpa using hcl2
                have hcompl := commitLoop_complete beh ("add/submission-batch-"
                  ++ stripTimestampChars ts) (allQueueFiles queue) 0 hcl2'
                rcases hpull : beh.pullOk with - | -
                · have hout : createPullRequest beh envTarget ts queue =
                      { calls := fullCallTrace beh envTarget ts queue,
                        status := PrStatus.apiError, queue := queue } := by
                    simp [createPullRequest, fullCallTrace, hq, hft, hfork, hrepo,
                      href, hcref, hcl2', hpull, hcompl]
                  refine ⟨?_, ?_, ?_, ?_⟩
                  · intro _
                    rw [hout]
                  · intro h
                    rw [hout] at h
                    exact absurd h (by simp)
                  · intro _
                    rw [hout]
                    simp [hq]
                  · rw [hout]
                    exact ⟨[], by simp⟩
                · have hout : createPullRequest beh envTarget ts queue =
                      { calls := fullCallTrace beh envTarget ts queue,
                        status := PrStatus.success, queue := [] } := by
                    simp [createPullRequest, fullCallTrace, hq, hft, hfork, hrepo,
                      href, hcref, hcl2', hpull, hcompl]
                  refine ⟨?_, ?_, ?_, ?_⟩
                  · intro h
                    rw [hout] at h
                    exact absurd rfl h
                  · intro _
                    rw [hout]
                  · intro _
                    rw [hout]
                    simp
                  · rw [hout]
                    exact ⟨[], by simp⟩
    · have hout : createPullRequest beh envTarget ts queue =
          { calls := [], status := PrStatus.fileTooLarge fname, queue := queue } := by
        simp [createPullRequest, hq, hft]
      refine ⟨?_, ?_, ?_, ?_⟩
      · intro _
        rw [hout]
      · intro h
        rw [hout] at h
        exact absurd h (by simp)
      · intro _
        rw [hout]
        simp [hq]
      · rw [hout]
        exact ⟨fullCallTrace beh envTarget ts queue, rfl⟩

/-- A one-failure oracle: everything succeeds except the final
pull-request creation. -/
def pullFailBehavior : ApiBehavior :=
  { happyBehavior with pullOk := false }

/-- Witness for C5: when the pull-request step fails, the queue is
exactly what it was before the run. -/
theorem createPullRequest_failure_spec_witness :
    (createPullRequest pullFailBehavior none "2024-01-01T00:00:00.000Z"
        [bgWitnessItem]).queue = [bgWitnessItem] :=
  (createPullRequest_failure_spec pullFailBehavior none "2024-01-01T00:00:00.000Z"
    [bgWitnessItem]).1 (by decide)

/-! ### Browser-persistent storage (app.ts lines 98-147) -/

/-- One `localStorage` mutation. -/
inductive StorageOp where
  | setItem (key value : String)
  | removeItem (key : String)
deriving DecidableEq, Repr

/-- The key an operation touches. -/
def storageKey : StorageOp → String
  | StorageOp.setItem key _ => key
  | StorageOp.removeItem key => key

/-- JavaScript truthiness of a nullable string (`null`/`undefined` and
the empty string are falsy). -/
def truthyStr : Option String → Bool
  | none => false
  | some s => !(s == "")

/-- Outcome of the client's token-exchange `fetch` in
`handleCallback`: an error (non-ok response, thrown error, or an
`error` field in the payload) or the received access token. -/
inductive ExchangeOutcome where
  | failed (message : String)
  | succeeded (accessToken : String)

/-- The operations of the client, each carrying the inputs that
determine its `localStorage` effects.  `checkAuthOp` carries the
stored token and whether `users.getAuthenticated` succeeds;
`handleCallbackOp` the `code` query parameter and the exchange
outcome.  The remaining operations never touch storage. -/
inductive ClientOp where
  | checkAuthOp (storedToken : Option String) (tokenValid : Bool)
  | handleCallbackOp (code : Option String) (exchange : ExchangeOutcome)
  | initiateLoginOp
  | fetchListOp (res : Except Unit GetContentData)
  | addToQueueOp (inp : AddInputs)
  | createPrOp (envTarget : Option String) (isoTimestamp : String)
  | updateQueueDisplayOp
  | resetFormsOp

/-- The `localStorage` mutations each client operation performs, read
off app.ts: `removeItem('github_token')` on a failed validation of a
stored token (line 107), `setItem('github_token', ...)` on a
successful exchange (line 137), nothing anywhere else. -/
def storageOps : ClientOp → List StorageOp
  | ClientOp.checkAuthOp storedToken tokenValid =>
      if truthyStr storedToken then
        if tokenValid then []
        else [StorageOp.removeItem "github_token"]
      else []
  | ClientOp.handleCallbackOp code exchange =>
      if truthyStr code then
        match exchange with
        | ExchangeOutcome.failed _ => []
        | ExchangeOutcome.succeeded accessToken =>
            [StorageOp.setItem "github_token" accessToken]
      else []
  | _ => []

/-- C7: across every client operation, each storage write or removal
uses the single key `github_token`; `checkAuth` removes it exactly
when a stored token fails validation, `handleCallback` stores the
received token exactly on a successful exchange, and a failed
exchange writes nothing. -/
theorem client_storage_frame :
    (∀ op : ClientOp, ∀ sop ∈ storageOps op, storageKey sop = "github_token")
    ∧ (∀ storedToken tokenValid,
        storageOps (ClientOp.checkAuthOp storedToken tokenValid) =
          if truthyStr storedToken = true ∧ tokenValid = false
          then [StorageOp.removeItem "github_token"] else [])
    ∧ (∀ code accessToken, truthyStr code = true →
        storageOps (ClientOp.handleCallbackOp code
            (ExchangeOutcome.succeeded accessToken)) =
          [StorageOp.setItem "github_token" accessToken])
    ∧ (∀ code message,
        storageOps (ClientOp.handleCallbackOp code
            (ExchangeOutcome.failed message)) = []) := by
  refine ⟨?_, ?_, ?_, ?_⟩
  · intro op sop hmem
    cases op with
    | checkAuthOp storedToken tokenValid =>
        by_cases h1 : truthyStr storedToken = true
        · by_cases h2 : tokenValid = true
          · simp [storageOps, h1, h2] at hmem
          · have h2' : tokenValid = false := by simpa using h2
            simp [storageOps, h1, h2'] at hmem
            subst hmem
            rfl
        · have h1' : truthyStr storedToken = false := by simpa using h1
          simp [storageOps, h1'] at hmem
    | handleCallbackOp code exchange =>
        by_cases h1 : truthyStr code = true
        · cases exchange with
          | failed message => simp [storageOps, h1] at hmem
          | succeeded accessToken =>
              simp [storageOps, h1] at hmem
              subst hmem
              rfl
        · have h1' : truthyStr code = false := by simpa using h1
          simp [storageOps, h1'] at hmem
    | initiateLoginOp => simp [storageOps] at hmem
    | fetchListOp res => simp [storageOps] at hmem
    | addToQueueOp inp => simp [storageOps] at hmem
    | createPrOp envTarget isoTimestamp => simp [storageOps] at hmem
    | updateQueueDisplayOp => simp [storageOps] at hmem
    | resetFormsOp => simp [storageOps] at hmem
  · intro storedToken tokenValid
    by_cases h1 : truthyStr storedToken = true
    · by_cases h2 : tokenValid = true
      · simp [storageOps, h1, h2]
      · have h2' : tokenValid = false := by simpa using h2
        simp [storageOps, h1, h2']
    · have h1' : truthyStr storedToken = false := by simpa using h1
      simp [storageOps, h1']
  · intro code accessToken h1
    simp [storageOps, h1]
  · intro code message
    by_cases h1 : truthyStr code = true
    · simp [storageOps, h1]
    · have h1' : truthyStr code = false := by simpa using h1
      simp [storageOps, h1']

/-- Witness for C7: a successful exchange on a present code stores the
token under `github_token`. -/
theorem client_storage_frame_witness :
    storageOps (ClientOp.handleCallbackOp (some "abc")
        (ExchangeOutcome.succeeded "tok123")) =
      [StorageOp.setItem "github_token" "tok123"] :=
  client_storage_frame.2.2.1 (some "abc") "tok123" (by decide)

/-! ### The OAuth callback endpoint (api/github-callback.js) -/

/-- The JSON payload GitHub returns from the token exchange, reduced
to the fields the endpoint reads (`none` for an absent field). -/
structure UpstreamJson where
  error : Option String
  error_description : Option String
  access_token : Option String

/-- The `fetch` response of the token exchange. -/
structure UpstreamResponse where
  ok : Bool
  status : Nat
  json : UpstreamJson

/-- The JSON body the endpoint sends back: `{ error }` or
`{ access_token }`. -/
inductive RespBody where
  | errorBody (message : String)
  | tokenBody (access_token : String)
deriving DecidableEq, Repr

/-- api/github-callback.js lines 1-58: the status code and body for
one request.  `code` is `request.body.code`, `clientId` and
`clientSecret` the two environment variables, `upstream` the exchange
response (`none` when `fetch` itself throws; the thrown message is
abstracted since only the 500 status matters).  Every `throw` lands in
the catch that answers 500 with the error's message. -/
def githubCallbackHandler (method : String) (code : Option String)
    (clientId clientSecret : Option String)
    (upstream : Option UpstreamResponse) : Nat × RespBody :=
  if method ≠ "POST" then (405, RespBody.errorBody "Method Not Allowed")
  else if truthyStr code = false then
    (400, RespBody.errorBody "Authorization code is missing")
  else if truthyStr clientId = false ∨ truthyStr clientSecret = false then
    (500, RespBody.errorBody "Server configuration error: GitHub credentials not set.")
  else
    match upstream with
    | none => (500, RespBody.errorBody "fetch failed")
    | some r =>
        if r.ok = false then
          (500, RespBody.errorBody
            ("Failed to exchange code for token. Status: " ++ toString r.status))
        else if truthyStr r.json.error then
          (500, RespBody.errorBody
            (match r.json.error_description with
             | some d => if d = "" then r.json.error.getD "" else d
             | none => r.json.error.getD ""))
        else
          match r.json.access_token with
          | none => (500, RespBody.errorBody "Access token not found in GitHub response.")
          | some t =>
              if t = "" then
                (500, RespBody.errorBody "Access token not found in GitHub response.")
              else (200, RespBody.tokenBody t)

/-- C8: the endpoint answers 405 on any non-POST method; 400 on a
missing (falsy) code; 500 when a server credential is unset, when the
exchange `fetch` throws, when the exchange response is not ok, when
its payload carries an `error`, or when it carries no (truthy) access
token; and it answers 200 only when the response is ok and carries an
access token, in which case the body is exactly that token. -/
theorem githubCallbackHandler_spec (method : String) (code : Option String)
    (clientId clientSecret : Option String)
    (upstream : Option UpstreamResponse) :
    (method ≠ "POST" →
        (githubCallbackHandler method code clientId clientSecret upstream).1 = 405)
    ∧ (method = "POST" → truthyStr code = false →
        (githubCallbackHandler method code clientId clientSecret upstream).1 = 400)
    ∧ (method = "POST" → truthyStr code = true →
        (clientId = none ∨ clientSecret = none) →
        (githubCallbackHandler method code clientId clientSecret upstream).1 = 500)
    ∧ (method = "POST" → truthyStr code = true → truthyStr clientId = true →
        truthyStr clientSecret = true → upstream = none →
        (githubCallbackHandler method code clientId clientSecret upstream).1 = 500)
    ∧ (∀ r, method = "POST" → truthyStr code = true → truthyStr clientId = true →
        truthyStr clientSecret = true → upstream = some r → r.ok = false →
        (githubCallbackHandler method code clientId clientSecret upstream).1 = 500)
    ∧ (∀ r, method = "POST" → truthyStr code = true → truthyStr clientId = true →
        truthyStr clientSecret = true → upstream = some r →
        truthyStr r.json.error = true →
        (githubCallbackHandler method code clientId clientSecret upstream).1 = 500)
    ∧ (∀ r, method = "POST" → truthyStr code = true → truthyStr clientId = true →
        truthyStr clientSecret = true → upstream = some r →
        truthyStr r.json.access_token = false →
        (githubCallbackHandler method code clientId clientSecret upstream).1 = 500)
    ∧ ((githubCallbackHandler method code clientId clientSecret upstream).1 = 200 →
        ∃ r t, upstream = some r ∧ r.ok = true ∧
          r.json.access_token = some t ∧ t ≠ "" ∧
          (githubCallbackHandler method code clientId clientSecret upstream).2 =
            RespBody.tokenBody t) := by
  refine ⟨?_, ?_, ?_, ?_, ?_, ?_, ?_, ?_⟩
  · intro hm
    simp [githubCallbackHandler, hm]
  · intro hm hc
    simp [githubCallbackHandler, hm, hc]
  · intro hm hc hcred
    have hcc : truthyStr clientId = false ∨ truthyStr clientSecret = false := by
      rcases hcred with h | h <;> [left; right] <;> simp [h, truthyStr]
    simp [githubCallbackHandler, hm, hc, hcc]
  · rintro hm hc hci hcs rfl
    simp [githubCallbackHandler, hm, hc, hci, hcs]
  · rintro r hm hc hci hcs rfl hok
    simp [githubCallbackHandler, hm, hc, hci, hcs, hok]
  · rintro r hm hc hci hcs rfl herr
    by_cases hok : r.ok = false
    · simp [githubCallbackHandler, hm, hc, hci, hcs, hok]
    · have hok' : r.ok = true := by simpa using hok
      simp [githubCallbackHandler, hm, hc, hci, hcs, hok', herr]
  · rintro r hm hc hci hcs rfl hat
    by_cases hok : r.ok = false
    · simp [githubCallbackHandler, hm, hc, hci, hcs, hok]
    · have hok' : r.ok = true := by simpa using hok
      by_cases herr : truthyStr r.json.error = true
      · simp [githubCallbackHandler, hm, hc, hci, hcs, hok', herr]
      · have herr' : truthyStr r.json.error = false := by simpa using herr
        rcases hato : r.json.access_token with - | t
        · simp [githubCallbackHandler, hm, hc, hci, hcs, hok', herr', hato]
        · have ht : t = "" := by
            rw [hato] at hat
            simpa [truthyStr] using hat
          simp [githubCallbackHandler, hm, hc, hci, hcs, hok', herr', hato, ht]
  · intro h200
    by_cases hm : method = "POST"
    · by_cases hc : truthyStr code = true
      · by_cases hci : truthyStr clientId = true
        · by_cases hcs : truthyStr clientSecret = true
          · rcases hup : upstream with - | r
            · rw [hup] at h200
              simp [githubCallbackHandler, hm, hc, hci, hcs] at h200
            · rw [hup] at h200
              by_cases hok : r.ok = false
              · simp [githubCallbackHandler, hm, hc, hci, hcs, hok] at h200
              · have hok' : r.ok = true := by simpa using hok
                by_cases herr : truthyStr r.json.error = true
                · simp [githubCallbackHandler, hm, hc, hci, hcs, hok', herr] at h200
                · have herr' : truthyStr r.json.error = false := by simpa using herr
                  rcases hato : r.json.access_token with - | t
                  · simp [githubCallbackHandler, hm, hc, hci, hcs, hok', herr',
                      hato] at h200
                  · by_cases ht : t = ""
                    · simp [githubCallbackHandler, hm, hc, hci, hcs, hok', herr',
                        hato, ht] at h200
                    · refine ⟨r, t, rfl, hok', hato, ht, ?_⟩
                      simp [githubCallbackHandler, hm, hc, hci, hcs, hok', herr',
                        hato, ht]
          · have hcs' : truthyStr clientSecret = false := by simpa using hcs
            simp [githubCallbackHandler, hm, hc, hci, hcs'] at h200
        · have hci' : truthyStr clientId = false := by simpa using hci
          simp [githubCallbackHandler, hm, hc, hci'] at h200
      · have hc' : truthyStr code = false := by simpa using hc
        simp [githubCallbackHandler, hm, hc'] at h200
    · simp [githubCallbackHandler, hm] at h200

/-- Witness for C8: a GET request is answered 405. -/
theorem githubCallbackHandler_spec_witness :
    (githubCallbackHandler "GET" (some "c") (some "id") (some "secret") none).1 = 405 :=
  (githubCallbackHandler_spec "GET" (some "c") (some "id") (some "secret") none).1
    (by decide)
